import Mathlib

/- Verification development for the muninnbot membership-screening and
   directory bot. The Python sources (bot.py, namemonitor.py, wellknown.py)
   are shallowly embedded: dictionaries become functions into Option, Python
   sets become Finset, the monotonic clock becomes a rational-valued event
   parameter, and each event handler becomes a state transformer that also
   emits the list of external effects (HTTP fetches, message sends,
   redactions, log lines) it performs. Python strings are sequences of code
   points, so string scanning is modelled on List Char; str.lower is
   modelled by Char.toLower (the identifiers involved are ASCII). -/

namespace Muninn

/-- Functional update of a dictionary modelled as a function into Option.
Passing none as the new value models deleting the key. -/
def mapSet {α : Type} (m : String → Option α) (k : String) (v : Option α) : String → Option α :=
  fun x => if x = k then v else m x

/-- Split a list at the first occurrence of a separator character, returning
the parts before and after it, or none when the separator does not occur. -/
def splitFirst (sep : Char) : List Char → Option (List Char × List Char)
  | [] => none
  | c :: rest =>
    if c = sep then some ([], rest)
    else (splitFirst sep rest).map fun p => (c :: p.1, p.2)

/-- Python str.startswith on code-point sequences. -/
def py_startswith (s pre : String) : Bool :=
  pre.data.isPrefixOf s.data

/-- Python truthiness fallback `name or ""` for an optional string. -/
def py_or_empty (d : Option String) : String :=
  match d with
  | some s => s
  | none => ""

/-- Python truthiness fallback `displayname or user_id`: empty or missing
display names fall back to the user id. -/
def py_or (d : Option String) (fallback : String) : String :=
  match d with
  | some s => if s = ("") then fallback else s
  | none => fallback

/-- The server part of a Matrix user id: everything after the first colon
(mautrix Client.parse_user_id). -/
def server_of (user_id : String) : String :=
  match splitFirst (':') user_id.data with
  | some p => String.mk p.2
  | none => String.mk []

/- ---------------------------------------------------------------------
   wellknown.py
   --------------------------------------------------------------------- -/

/-- One entry of the contacts list of a support well-known document
(wellknown.SupportContact). -/
structure SupportContact where
  role : String
  email_address : String
  matrix_id : String
deriving DecidableEq

/-- A parsed support well-known document (wellknown.SupportWellKnown). -/
structure SupportWellKnown where
  contacts : List SupportContact
  support_page : String
deriving DecidableEq

/-- Check whether the document lists a contact whose matrix_id exactly
equals the given user id (wellknown.SupportWellKnown.has_contact). -/
def SupportWellKnown.has_contact (wk : SupportWellKnown) (user_id : String) : Bool :=
  wk.contacts.any fun contact => contact.matrix_id == user_id

/-- Uniform failure raised by the well-known fetch; the caller never
distinguishes sub-kinds (it catches Exception). -/
inductive FetchFailure where
  | mk
deriving DecidableEq

/-- Environment input for one well-known HTTP fetch: either the request
itself failed (network error, raised inside sess.get), or a response
arrived carrying a status code and a body. The body is some document when
the bytes are decodable JSON deserializable to SupportWellKnown, and none
when json decoding or deserialization would raise. -/
inductive FetchOutcome where
  | netError
  | response (status : Nat) (body : Option SupportWellKnown)
deriving DecidableEq

/-- Model of wellknown.fetch_support_well_known applied to one fetch
outcome. resp.raise_for_status is aiohttp's: it raises ClientResponseError
exactly when the response status is 400 or above. Then the JSON decode and
SupportWellKnown.deserialize raise exactly when the body is undecodable. -/
def fetch_support_well_known : FetchOutcome → Except FetchFailure SupportWellKnown
  | FetchOutcome.netError => Except.error FetchFailure.mk
  | FetchOutcome.response status body =>
    if 400 ≤ status then Except.error FetchFailure.mk
    else
      match body with
      | none => Except.error FetchFailure.mk
      | some wk => Except.ok wk

/- ---------------------------------------------------------------------
   bot.py: data model
   --------------------------------------------------------------------- -/

/-- bot.JoinType. -/
inductive JoinType where
  | NEW_IS_LISTED_SUPPORT
  | NEW_NOT_LISTED_SUPPORT
  | NEW_WELL_KNOWN_MISSING
  | MEMBER_IS_LISTED_SUPPORT
  | MEMBER_NOT_LISTED_SUPPORT
deriving DecidableEq

/-- The configuration consumed by the modelled handlers: the bot's own
user id (self.client.mxid) and the screening room id. -/
structure Config where
  botMxid : String
  screeningRoom : String
deriving DecidableEq

/-- The mutable state of MuninnBot: the space-membership cache (only its
key set matters to the modelled handlers), welcomed_users, a map from user
id to Option of the stored Option EventID (absent key vs stored None vs
stored message id), pending_applications likewise, and the two rate-limiter
cells. -/
structure BotState where
  spaceMembers : List String
  welcomedUsers : String → Option (Option String)
  pendingApps : String → Option (Option String)
  limiterCount : Nat
  limiterTs : ℚ

/-- The state set up by MuninnBot.start: empty maps, limiter (0, 0), and a
space-membership snapshot provided by the environment. -/
def initState (space : List String) : BotState :=
  { spaceMembers := space
    welcomedUsers := fun _ => none
    pendingApps := fun _ => none
    limiterCount := 0
    limiterTs := 0 }

/-- External effects a handler performs, in order. -/
inductive Action where
  | fetchSupport (server : String)
  | fetchEvent (room evtId : String)
  | sendWelcome (room sender : String) (jt : JoinType) (is_join : Bool)
      (marker : Option String) (replyTo : String)
  | sendApplication (room user : String)
  | redact (room evtId reason : String)
  | logWarning
deriving DecidableEq

/-- The redaction reason used by handle_leave. -/
def userLeftReason : String := "User left"

/-- The reaction key checked by automatic_application (U+1F44D). -/
def thumbs_up : String := "👍"

/-- The classification performed at the top of MuninnBot._check_member for
a given sender and fetch outcome. -/
def classify (sender : String) (fetch : FetchOutcome) : JoinType :=
  match fetch_support_well_known fetch with
  | Except.ok wk =>
    if wk.has_contact sender then JoinType.NEW_IS_LISTED_SUPPORT
    else JoinType.NEW_NOT_LISTED_SUPPORT
  | Except.error _ => JoinType.NEW_WELL_KNOWN_MISSING

/-- The effects emitted by one run of MuninnBot._check_member: the
well-known fetch, a logged warning when the fetch failed, and exactly one
welcome message (stamped with the verification marker when the sender is a
listed support contact). -/
def check_acts (room sender evtId : String) (is_join : Bool) (fetch : FetchOutcome) : List Action :=
  Action.fetchSupport (server_of sender)
    :: ((match fetch_support_well_known fetch with
        | Except.error _ => [Action.logWarning]
        | Except.ok _ => [])
      ++ [Action.sendWelcome room sender (classify sender fetch) is_join
            (if classify sender fetch = JoinType.NEW_IS_LISTED_SUPPORT then some sender else none)
            evtId])

/-- Model of MuninnBot._check_member: classify the sender, send the welcome
message (the environment chooses the resulting event id msgId), record
welcomed_users[sender] = msgId only if absent (dict.setdefault), and when
the sender is a listed support contact register
pending_applications[msgId] = sender. -/
def MuninnBot.check_member (cfg : Config) (st : BotState) (room sender evtId : String)
    (is_join : Bool) (fetch : FetchOutcome) (msgId : String) : BotState × List Action :=
  let jt := classify sender fetch
  let welcomed1 :=
    match st.welcomedUsers sender with
    | some _ => st.welcomedUsers
    | none => mapSet st.welcomedUsers sender (some (some msgId))
  let pending1 :=
    if jt = JoinType.NEW_IS_LISTED_SUPPORT then
      mapSet st.pendingApps msgId (some (some sender))
    else st.pendingApps
  ({ st with welcomedUsers := welcomed1, pendingApps := pending1 },
    check_acts room sender evtId is_join fetch)

/-- Model of the screening-room branch of MuninnBot.handle_member for a
timeline join event. Both time.monotonic() calls of one run are modelled as
the same instant now. The skip checks run first; then, under join_lock, the
rate limiter: reset the count when now is strictly beyond limiterTs + 60,
else drop the join (with a logged warning) when more than 5 screenings
happened; otherwise screen, increment the count and set limiterTs to now. -/
def MuninnBot.handle_join (cfg : Config) (st : BotState) (sender evtId : String) (now : ℚ)
    (fetch : FetchOutcome) (msgId : String) : BotState × List Action :=
  if sender ∈ st.spaceMembers ∨ sender = cfg.botMxid ∨ (st.welcomedUsers sender).isSome then
    (st, [])
  else if st.limiterTs + 60 < now then
    let r := MuninnBot.check_member cfg st cfg.screeningRoom sender evtId true fetch msgId
    ({ r.1 with limiterCount := 0 + 1, limiterTs := now }, r.2)
  else if 5 < st.limiterCount then
    (st, [Action.logWarning])
  else
    let r := MuninnBot.check_member cfg st cfg.screeningRoom sender evtId true fetch msgId
    ({ r.1 with limiterCount := st.limiterCount + 1, limiterTs := now }, r.2)

/-- Model of MuninnBot.handle_leave for a leave or ban in the screening
room: under the lock, return when the sender has no welcomed_users entry,
else read the stored id and overwrite it with None; then, outside the lock,
redact the read id when it was not None. -/
def MuninnBot.handle_leave (cfg : Config) (st : BotState) (sender : String) : BotState × List Action :=
  match st.welcomedUsers sender with
  | none => (st, [])
  | some v =>
    let st1 := { st with welcomedUsers := mapSet st.welcomedUsers sender (some none) }
    match v with
    | some evtId => (st1, [Action.redact cfg.screeningRoom evtId userLeftReason])
    | none => (st1, [])

/-- The target event fetched by client.get_event in automatic_application:
its sender and the value of the com.muninn-hall.verified_application_sender
key of its content, if any. The response's room is the queried room. -/
structure FetchedEvent where
  sender : String
  marker : Option String
deriving DecidableEq

/-- Model of MuninnBot.automatic_application. Reactions from the bot, with
a non-annotation relation, or whose key does not start with the thumbs-up
glyph are ignored. Otherwise the target is resolved through the
pending_applications cache; on a cache miss the event is fetched (the
environment provides the result, none when client.get_event raises). Note
that the source rebinds the name evt to the fetched event, so on the cache
miss path the final comparison and the sent mention use the fetched event's
sender, not the reactor. -/
def MuninnBot.automatic_application (cfg : Config) (st : BotState) (sender : String)
    (annotated : Bool) (key room target : String) (fetched : Option FetchedEvent) :
    BotState × List Action :=
  if sender = cfg.botMxid ∨ annotated = false ∨ py_startswith key thumbs_up = false then
    (st, [])
  else
    match st.pendingApps target with
    | some user_id =>
      if user_id = some sender then
        ({ st with pendingApps := mapSet st.pendingApps target (some none) },
          [Action.sendApplication room sender])
      else (st, [])
    | none =>
      match fetched with
      | none =>
        ({ st with pendingApps := mapSet st.pendingApps target (some none) },
          [Action.fetchEvent room target, Action.logWarning])
      | some fe =>
        let user_id : Option String := if fe.sender = cfg.botMxid then fe.marker else none
        if user_id = some fe.sender then
          ({ st with pendingApps := mapSet (mapSet st.pendingApps target (some user_id)) target (some none) },
            [Action.fetchEvent room target, Action.sendApplication room fe.sender])
        else
          ({ st with pendingApps := mapSet st.pendingApps target (some user_id) },
            [Action.fetchEvent room target])

/-- Model of MuninnBot.manual_application (the apply command): reply with
the application-received message for the invoking user, no state change. -/
def MuninnBot.manual_application (cfg : Config) (st : BotState) (room sender : String) :
    BotState × List Action :=
  (st, [Action.sendApplication room sender])

/-- The inbound events the modelled screening engine consumes. joinScreen
and leaveScreen are timeline membership events in the screening room;
recheckCmd and applyCmd are bot commands; reaction is any reaction event.
Environment choices (clock reading, fetch results, ids of sent messages)
travel with the event. -/
inductive BotEvent where
  | joinScreen (sender evtId : String) (now : ℚ) (fetch : FetchOutcome) (msgId : String)
  | leaveScreen (sender : String)
  | recheckCmd (room sender evtId : String) (fetch : FetchOutcome) (msgId : String)
  | applyCmd (room sender : String)
  | reaction (sender : String) (annotated : Bool) (key room target : String)
      (fetched : Option FetchedEvent)
deriving DecidableEq

/-- Dispatch one event to its handler. -/
def step (cfg : Config) (st : BotState) : BotEvent → BotState × List Action
  | BotEvent.joinScreen sender evtId now fetch msgId =>
    MuninnBot.handle_join cfg st sender evtId now fetch msgId
  | BotEvent.leaveScreen sender => MuninnBot.handle_leave cfg st sender
  | BotEvent.recheckCmd room sender evtId fetch msgId =>
    MuninnBot.check_member cfg st room sender evtId false fetch msgId
  | BotEvent.applyCmd room sender => MuninnBot.manual_application cfg st room sender
  | BotEvent.reaction sender annotated key room target fetched =>
    MuninnBot.automatic_application cfg st sender annotated key room target fetched

/-- Process a list of events, collecting the per-event action lists and the
final state. -/
def runTrace (cfg : Config) : BotState → List BotEvent → List (List Action) × BotState
  | st, [] => ([], st)
  | st, e :: es =>
    ((step cfg st e).2 :: (runTrace cfg (step cfg st e).1 es).1,
      (runTrace cfg (step cfg st e).1 es).2)

/-- Count the welcome messages sent to user u by the join path (is_join
true) in a list of actions. -/
def countJoinWelcomes (u : String) (acts : List Action) : Nat :=
  (acts.filter fun a =>
    match a with
    | Action.sendWelcome _ s _ ij _ _ => s == u && ij
    | _ => false).length

/-- Total join-path welcome messages for user u over a whole trace. -/
def joinWelcomes (cfg : Config) (u : String) : BotState → List BotEvent → Nat
  | _, [] => 0
  | st, e :: es =>
    countJoinWelcomes u (step cfg st e).2 + joinWelcomes cfg u (step cfg st e).1 es

/-- Count redaction actions in a list of actions. -/
def countRedacts (acts : List Action) : Nat :=
  (acts.filter fun a =>
    match a with
    | Action.redact _ _ _ => true
    | _ => false).length

/-- Total redactions emitted while processing leave events of user u over a
whole trace. -/
def leaveRedacts (cfg : Config) (u : String) : BotState → List BotEvent → Nat
  | _, [] => 0
  | st, e :: es =>
    (if e = BotEvent.leaveScreen u then countRedacts (step cfg st e).2 else 0)
      + leaveRedacts cfg u (step cfg st e).1 es

/- ---------------------------------------------------------------------
   namemonitor.py
   --------------------------------------------------------------------- -/

/-- Find the first closing bracket in the list, returning the characters
before it and the remainder after it (with a proof that the remainder is
shorter, used for termination of the bracket scan). -/
def splitAtClose : (l : List Char) → Option (List Char × { t : List Char // t.length < l.length })
  | [] => none
  | c :: rest =>
    if c = (']') then some ([], ⟨rest, Nat.lt_succ_self _⟩)
    else
      match splitAtClose rest with
      | none => none
      | some (pre, t) => some (c :: pre, ⟨t.1, Nat.lt_succ_of_lt t.2⟩)

/-- Attempt to match the regex bracket_regex = \[(.+?)] right after an
opening bracket at the head of the surrounding scan: the group is the
shortest non-empty run of characters (the regex dot excludes newlines)
ending right before a closing bracket. Returns the group and the remainder
after the closing bracket, or none when no match starts here. -/
def findClose : (l : List Char) → Option (List Char × { t : List Char // t.length < l.length })
  | [] => none
  | c :: rest =>
    match splitAtClose rest with
    | none => none
    | some (pre, t) =>
      if ('\n') ∈ c :: pre then none
      else some (c :: pre, ⟨t.1, Nat.lt_succ_of_lt t.2⟩)

/-- Fuel-indexed worker for the bracket scan. Every step consumes at least
one character while the fuel decreases by exactly one, so fuel equal to the
input length never runs out; structural recursion on the fuel keeps the
function kernel-reducible. -/
def scanBracketAux : Nat → List Char → List (List Char)
  | 0, _ => []
  | _ + 1, [] => []
  | fuel + 1, c :: rest =>
    if c = ('[') then
      match findClose rest with
      | some (g, t) => g :: scanBracketAux fuel t.1
      | none => scanBracketAux fuel rest
    else scanBracketAux fuel rest

/-- The groups produced by bracket_regex.finditer: scan left to right; at
each opening bracket try to match; on success emit the group and resume
after its closing bracket, on failure resume at the next character. -/
def scanBracket (l : List Char) : List (List Char) :=
  scanBracketAux l.length l

/-- Whether a character is one of the separators of separator_regex
[, /]. -/
def isSep (c : Char) : Bool :=
  c = (',') || c = (' ') || c = ('/')

/-- Model of separator_regex.split: split on every single separator
occurrence, keeping empty fields, as Python re.split does. -/
def splitSeps : List Char → List (List Char)
  | [] => [[]]
  | c :: rest =>
    if isSep c then [] :: splitSeps rest
    else
      match splitSeps rest with
      | t :: ts => (c :: t) :: ts
      | [] => [[c]]

/-- Python word.rsplit(".", 1) for a word known to contain a dot: the parts
before and after the last dot. For a word without a dot the result is the
whole word paired with an empty part (parse_name never uses that case). -/
def rsplitDot (w : List Char) : List Char × List Char :=
  match splitFirst ('.') w.reverse with
  | some p => (p.2.reverse, p.1.reverse)
  | none => (w, [])

/-- The contribution of one separated word to the parse_name output: skip
words without a dot; lower-case the word, split at the last dot into
(domain, tld); skip when the domain is empty or the tld is not in the TLD
set; otherwise yield the lower-cased word. -/
def word_result (tlds : Finset String) (word : List Char) : Option String :=
  if ('.') ∈ word then
    let w := word.map Char.toLower
    let dt := rsplitDot w
    if dt.1 ≠ [] ∧ String.mk dt.2 ∈ tlds then some (String.mk w) else none
  else none

/-- Model of NameMonitor.parse_name: collect, over every bracketed group of
the display name (missing names are treated as empty) and every separated
word of each group, the accepted lower-cased words into a set. -/
def parse_name (tlds : Finset String) (name : Option String) : Finset String :=
  (scanBracket (py_or_empty name).data).foldl
    (fun output chunk =>
      (splitSeps chunk).foldl
        (fun output word =>
          match word_result tlds word with
          | some w => insert w output
          | none => output)
        output)
    ∅

/-- The mutable state of NameMonitor: member_names, the forward map
mxid_to_servers and the inverse map server_to_mxids. -/
structure NameState where
  member_names : String → Option String
  mxid_to_servers : String → Option (Finset String)
  server_to_mxids : String → Option (Finset String)

/-- The NameMonitor state at construction: all maps empty. -/
def initNameState : NameState :=
  { member_names := fun _ => none
    mxid_to_servers := fun _ => none
    server_to_mxids := fun _ => none }

/-- The value at key server after NameMonitor._remove_member_from_server:
when the key holds a non-empty set (Python truthiness also skips a missing
or empty entry), discard the user from it and delete the entry entirely
when it becomes empty. The source's set.remove presupposes membership; it
is modelled by Finset.erase. Keys other than server are untouched. -/
def remove_member_from_server (inv : String → Option (Finset String)) (server u : String) :
    Option (Finset String) :=
  match inv server with
  | none => none
  | some s =>
    if s = ∅ then some s
    else if s.erase u = ∅ then none else some (s.erase u)

/-- The value at key server after NameMonitor._add_member_to_server:
setdefault to the empty set, then insert the user. -/
def add_member_to_server (inv : String → Option (Finset String)) (server u : String) :
    Option (Finset String) :=
  some (insert u ((inv server).getD ∅))

/-- Model of NameMonitor._update_member: store the new server set for the
user; when it differs from the old one, adjust the inverse map by the
symmetric difference. Each loop iteration of the source touches only the
server key it names, so the loops are rendered as a per-key map. -/
def update_member (st : NameState) (u : String) (new : Finset String) : NameState :=
  let old := (st.mxid_to_servers u).getD ∅
  let fwd := mapSet st.mxid_to_servers u (some new)
  if new = old then { st with mxid_to_servers := fwd }
  else
    { st with
      mxid_to_servers := fwd
      server_to_mxids := fun s =>
        if s ∈ old \ new then remove_member_from_server st.server_to_mxids s u
        else if s ∈ new \ old then add_member_to_server st.server_to_mxids s u
        else st.server_to_mxids s }

/-- Model of NameMonitor._remove_member: pop the user's forward entry and
discard the user from the inverse set of every server it named. -/
def remove_member (st : NameState) (u : String) : NameState :=
  let servers := (st.mxid_to_servers u).getD ∅
  { st with
    mxid_to_servers := mapSet st.mxid_to_servers u none
    server_to_mxids := fun s =>
      if s ∈ servers then remove_member_from_server st.server_to_mxids s u
      else st.server_to_mxids s }

/-- The membership values of mautrix relevant to NameMonitor.handle_member:
only join keeps a member indexed. -/
inductive Membership where
  | join
  | leave
  | ban
  | invite
  | knock
deriving DecidableEq

/-- A main-room member state event as consumed by
NameMonitor.handle_member: the affected user (the event's state_key), the
new membership and the displayname carried by the content. -/
inductive NameEvent where
  | member (stateKey : String) (membership : Membership) (displayname : Option String)
deriving DecidableEq

/-- Model of NameMonitor.handle_member for a main-room member event:
excluded members are skipped; a non-join membership removes the member;
a join stores the display name (falling back to the user id) and then
updates the index with the servers parsed from the display name.
NameMonitor.load_members performs the same pair of writes per member when
seeding the index. -/
def NameMonitor.handle_member (excluded tlds : Finset String) (st : NameState) :
    NameEvent → NameState
  | NameEvent.member u mem d =>
    if u ∈ excluded then st
    else if mem ≠ Membership.join then remove_member st u
    else
      update_member
        { st with member_names := mapSet st.member_names u (some (py_or d u)) }
        u (parse_name tlds d)

/-- Process a list of member events through the Name Index. -/
def runName (excluded tlds : Finset String) (st : NameState) (evts : List NameEvent) : NameState :=
  evts.foldl (NameMonitor.handle_member excluded tlds) st

/-- The bidirectional Name Index invariant: a user is in a server's inverse
set exactly when the server is in the user's forward set, and every inverse
entry that is present is non-empty. -/
def NameInv (st : NameState) : Prop :=
  (∀ s u, u ∈ ((st.server_to_mxids s).getD ∅) ↔ s ∈ ((st.mxid_to_servers u).getD ∅))
    ∧ ∀ s S, st.server_to_mxids s = some S → S.Nonempty

/-- A concrete configuration used by concrete instantiations. -/
def cfg0 : Config := { botMxid := ("@bot:ex.org"), screeningRoom := ("!screen:ex.org") }

/-- A concrete support well-known document listing no contacts. -/
def wkEmpty : SupportWellKnown := { contacts := [], support_page := ("") }

/-- A concrete state in which @alice:x already has a welcome message id
recorded. -/
def stWelcomed : BotState :=
  { initState [] with welcomedUsers := mapSet (fun _ => none) ("@alice:x") (some (some ("$w"))) }

/-- A concrete state in which the entry for @alice:x has been cleared by a
processed leave. -/
def stCleared : BotState :=
  { initState [] with welcomedUsers := mapSet (fun _ => none) ("@alice:x") (some none) }

/-- A concrete state in which the welcome message $w has a cached pending
application for @alice:x. -/
def stPending : BotState :=
  { initState [] with pendingApps := mapSet (fun _ => none) ("$w") (some (some ("@alice:x"))) }

/-- Concrete distinct users for the rate-limiter scenario. -/
def c4u : Fin 8 → String := fun i => String.mk [('@'), ('u'), Char.ofNat (48 + i.val), (':'), ('x')]

/-- Concrete distinct message ids for the rate-limiter scenario. -/
def c4m : Fin 8 → String := fun i => String.mk [('$'), ('m'), Char.ofNat (48 + i.val)]

/-- Concrete times for the rate-limiter scenario: seven joins at second 100
and one more 61 seconds later. -/
def c4t : Fin 8 → ℚ := fun i => if i.val ≤ 6 then 100 else 161

/- ---------------------------------------------------------------------
   Helper lemmas
   --------------------------------------------------------------------- -/

@[simp]
theorem mapSet_same {α : Type} (m : String → Option α) (k : String) (v : Option α) :
    mapSet m k v k = v := by
  simp [mapSet]

theorem mapSet_other {α : Type} (m : String → Option α) (k : String) (v : Option α)
    (x : String) (h : x ≠ k) : mapSet m k v x = m x := by
  simp [mapSet, h]

/- Membership in the inner word fold of parse_name. -/
theorem mem_word_fold (tlds : Finset String) (ws : List (List Char)) (acc : Finset String)
    (w : String) :
    w ∈ ws.foldl
        (fun output word =>
          match word_result tlds word with
          | some x => insert x output
          | none => output) acc
      ↔ w ∈ acc ∨ ∃ t ∈ ws, word_result tlds t = some w := by
  induction ws generalizing acc with
  | nil => simp
  | cons t ts ih =>
    rw [List.foldl_cons, ih]
    cases h : word_result tlds t with
    | none => simp [h]
    | some x =>
      simp only [h, Finset.mem_insert, List.mem_cons]
      constructor
      · rintro ((rfl | hw) | hts)
        · exact Or.inr ⟨t, Or.inl rfl, h⟩
        · exact Or.inl hw
        · obtain ⟨a, ha, hr⟩ := hts
          exact Or.inr ⟨a, Or.inr ha, hr⟩
      · rintro (hw | ⟨a, (rfl | ha), hr⟩)
        · exact Or.inl (Or.inr hw)
        · rw [h] at hr
          exact Or.inl (Or.inl (Option.some_injective _ hr.symm))
        · exact Or.inr ⟨a, ha, hr⟩

/- Membership in the outer chunk fold of parse_name. -/
theorem mem_chunk_fold (tlds : Finset String) (gs : List (List Char)) (acc : Finset String)
    (w : String) :
    w ∈ gs.foldl
        (fun output chunk =>
          (splitSeps chunk).foldl
            (fun output word =>
              match word_result tlds word with
              | some x => insert x output
              | none => output) output) acc
      ↔ w ∈ acc ∨ ∃ g ∈ gs, ∃ t ∈ splitSeps g, word_result tlds t = some w := by
  induction gs generalizing acc with
  | nil => simp
  | cons g gs ih =>
    rw [List.foldl_cons, ih, mem_word_fold]
    simp only [List.mem_cons]
    constructor
    · rintro ((hw | ⟨t, ht, hr⟩) | ⟨a, ha, rest⟩)
      · exact Or.inl hw
      · exact Or.inr ⟨g, Or.inl rfl, t, ht, hr⟩
      · exact Or.inr ⟨a, Or.inr ha, rest⟩
    · rintro (hw | ⟨a, (rfl | ha), rest⟩)
      · exact Or.inl (Or.inl hw)
      · exact Or.inl (Or.inr rest)
      · exact Or.inr ⟨a, ha, rest⟩

/- Unfolding characterization of word_result. -/
theorem word_result_eq_some (tlds : Finset String) (t : List Char) (w : String) :
    word_result tlds t = some w
      ↔ ('.') ∈ t ∧ (rsplitDot (t.map Char.toLower)).1 ≠ []
          ∧ String.mk (rsplitDot (t.map Char.toLower)).2 ∈ tlds
          ∧ w = String.mk (t.map Char.toLower) := by
  simp only [word_result]
  split_ifs with hdot hacc
  · simp only [Option.some.injEq]
    constructor
    · rintro rfl
      exact ⟨hdot, hacc.1, hacc.2, rfl⟩
    · rintro ⟨-, -, -, rfl⟩
      rfl
  · simp only [false_iff, not_and, reduceCtorEq]
    intro _ h1 h2 _
    exact hacc ⟨h1, h2⟩
  · simp [hdot]

/- Finset-level description of remove_member_from_server: at the touched
key, the entry behaves like erasing the user from the stored set. -/
theorem remove_member_from_server_getD (inv : String → Option (Finset String)) (server u : String) :
    (remove_member_from_server inv server u).getD ∅ = ((inv server).getD ∅).erase u := by
  cases h : inv server with
  | none => simp [remove_member_from_server, h]
  | some S =>
    simp only [remove_member_from_server, h, Option.getD_some]
    split_ifs with h0 h1
    · subst h0
      simp
    · rw [Option.getD_none, h1]
    · rw [Option.getD_some]

/- remove_member_from_server keeps present entries non-empty, given they
were non-empty before. -/
theorem remove_member_from_server_nonempty (inv : String → Option (Finset String))
    (server u : String) (h : ∀ S, inv server = some S → S.Nonempty) :
    ∀ S, remove_member_from_server inv server u = some S → S.Nonempty := by
  intro S hS
  cases h' : inv server with
  | none =>
    simp only [remove_member_from_server, h'] at hS
    exact Option.noConfusion hS
  | some T =>
    simp only [remove_member_from_server, h'] at hS
    split_ifs at hS with h0 h1
    · exact absurd (h T h') (by rw [h0]; exact Finset.not_nonempty_empty)
    · rw [Option.some.injEq] at hS
      subst hS
      exact Finset.nonempty_iff_ne_empty.mpr h1

/- Present entries produced by add_member_to_server are non-empty. -/
theorem add_member_to_server_nonempty (inv : String → Option (Finset String)) (server u : String) :
    ∀ S, add_member_to_server inv server u = some S → S.Nonempty := by
  intro S hS
  rw [add_member_to_server, Option.some.injEq] at hS
  subst hS
  exact Finset.insert_nonempty _ _

/- update_member preserves the bidirectional Name Index invariant. -/
theorem update_member_inv (st : NameState) (u : String) (new : Finset String)
    (h : NameInv st) : NameInv (update_member st u new) := by
  obtain ⟨h1, h2⟩ := h
  simp only [update_member]
  split_ifs with heq
  · constructor
    · intro s v
      by_cases hv : v = u
      · subst hv
        show v ∈ ((st.server_to_mxids s).getD ∅) ↔ s ∈ ((mapSet st.mxid_to_servers v (some new) v).getD ∅)
        rw [mapSet_same, Option.getD_some, heq]
        exact h1 s v
      · show v ∈ ((st.server_to_mxids s).getD ∅) ↔ s ∈ ((mapSet st.mxid_to_servers u (some new) v).getD ∅)
        rw [mapSet_other _ _ _ _ hv]
        exact h1 s v
    · exact h2
  · constructor
    · intro s v
      show v ∈ ((if s ∈ (st.mxid_to_servers u).getD ∅ \ new then
            remove_member_from_server st.server_to_mxids s u
          else if s ∈ new \ (st.mxid_to_servers u).getD ∅ then
            add_member_to_server st.server_to_mxids s u
          else st.server_to_mxids s).getD ∅)
        ↔ s ∈ ((mapSet st.mxid_to_servers u (some new) v).getD ∅)
      by_cases hv : v = u
      · subst hv
        rw [mapSet_same, Option.getD_some]
        split_ifs with hA hB
        · rw [remove_member_from_server_getD]
          rw [Finset.mem_sdiff] at hA
          simp [hA.2]
        · rw [Finset.mem_sdiff] at hB
          simp [add_member_to_server, hB.1]
        · rw [Finset.mem_sdiff] at hA hB
          rw [h1 s v]
          tauto
      · rw [mapSet_other _ _ _ _ hv]
        split_ifs with hA hB
        · rw [remove_member_from_server_getD, Finset.mem_erase]
          simp only [hv, ne_eq, not_false_eq_true, true_and]
          exact h1 s v
        · simp only [add_member_to_server, Option.getD_some, Finset.mem_insert, hv, false_or]
          exact h1 s v
        · exact h1 s v
    · intro s S
      show (if s ∈ (st.mxid_to_servers u).getD ∅ \ new then
            remove_member_from_server st.server_to_mxids s u
          else if s ∈ new \ (st.mxid_to_servers u).getD ∅ then
            add_member_to_server st.server_to_mxids s u
          else st.server_to_mxids s) = some S → S.Nonempty
      split_ifs with hA hB
      · exact remove_member_from_server_nonempty _ _ _ (h2 s) S
      · exact add_member_to_server_nonempty _ _ _ S
      · exact h2 s S

/- remove_member preserves the bidirectional Name Index invariant. -/
theorem remove_member_inv (st : NameState) (u : String) (h : NameInv st) :
    NameInv (remove_member st u) := by
  obtain ⟨h1, h2⟩ := h
  constructor
  · intro s v
    show v ∈ ((if s ∈ (st.mxid_to_servers u).getD ∅ then
          remove_member_from_server st.server_to_mxids s u
        else st.server_to_mxids s).getD ∅)
      ↔ s ∈ ((mapSet st.mxid_to_servers u none v).getD ∅)
    by_cases hv : v = u
    · subst hv
      rw [mapSet_same, Option.getD_none]
      simp only [Finset.not_mem_empty, iff_false]
      split_ifs with hA
      · rw [remove_member_from_server_getD, Finset.mem_erase]
        simp
      · rw [h1 s v]
        exact hA
    · rw [mapSet_other _ _ _ _ hv]
      split_ifs with hA
      · rw [remove_member_from_server_getD, Finset.mem_erase]
        simp only [hv, ne_eq, not_false_eq_true, true_and]
        exact h1 s v
      · exact h1 s v
  · intro s S
    show (if s ∈ (st.mxid_to_servers u).getD ∅ then
          remove_member_from_server st.server_to_mxids s u
        else st.server_to_mxids s) = some S → S.Nonempty
    split_ifs with hA
    · exact remove_member_from_server_nonempty _ _ _ (h2 s) S
    · exact h2 s S

/- The forward map after update_member is the stored new set at the user
and unchanged elsewhere; member_names is untouched. -/
theorem update_member_fwd (st : NameState) (u : String) (new : Finset String) :
    (update_member st u new).mxid_to_servers = mapSet st.mxid_to_servers u (some new) := by
  simp only [update_member]
  split_ifs <;> rfl

theorem update_member_names (st : NameState) (u : String) (new : Finset String) :
    (update_member st u new).member_names = st.member_names := by
  simp only [update_member]
  split_ifs <;> rfl

theorem remove_member_names (st : NameState) (u : String) :
    (remove_member st u).member_names = st.member_names := rfl

theorem remove_member_fwd (st : NameState) (u : String) :
    (remove_member st u).mxid_to_servers = mapSet st.mxid_to_servers u none := rfl

/- One Name Index event preserves the bidirectional invariant. -/
theorem nm_handle_member_inv (excluded tlds : Finset String) (st : NameState) (e : NameEvent)
    (h : NameInv st) : NameInv (NameMonitor.handle_member excluded tlds st e) := by
  cases e with
  | member u mem d =>
    rw [NameMonitor.handle_member]
    split_ifs with hx hj
    · exact h
    · exact remove_member_inv _ _ h
    · exact update_member_inv _ _ _ h

/- The empty Name Index satisfies the invariant. -/
theorem initNameState_inv : NameInv initNameState := by
  constructor
  · intro s u
    simp [initNameState]
  · intro s S hS
    cases hS

/- Any run of Name Index events preserves the invariant. -/
theorem runName_inv_aux (excluded tlds : Finset String) (evts : List NameEvent) :
    ∀ st : NameState, NameInv st → NameInv (runName excluded tlds st evts) := by
  induction evts with
  | nil => exact fun st h => h
  | cons e es ih =>
    intro st h
    exact ih _ (nm_handle_member_inv excluded tlds st e h)

/- One Name Index event preserves the property that every user with a
forward entry also has a stored display name. -/
theorem nm_handle_member_keys (excluded tlds : Finset String) (st : NameState) (e : NameEvent)
    (h : ∀ u, (st.mxid_to_servers u).isSome = true → (st.member_names u).isSome = true) :
    ∀ u, ((NameMonitor.handle_member excluded tlds st e).mxid_to_servers u).isSome = true →
      ((NameMonitor.handle_member excluded tlds st e).member_names u).isSome = true := by
  cases e with
  | member w mem d =>
    rw [NameMonitor.handle_member]
    split_ifs with hx hj
    · exact h
    · intro u
      rw [remove_member_fwd, remove_member_names]
      by_cases hu : u = w
      · subst hu
        rw [mapSet_same]
        intro hc
        cases hc
      · rw [mapSet_other _ _ _ _ hu]
        exact h u
    · intro u
      rw [update_member_fwd, update_member_names]
      by_cases hu : u = w
      · subst hu
        intro _
        show (mapSet st.member_names u (some (py_or d u)) u).isSome = true
        rw [mapSet_same]
        rfl
      · show (mapSet st.mxid_to_servers w (some (parse_name tlds d)) u).isSome = true →
          (mapSet st.member_names w (some (py_or d w)) u).isSome = true
        rw [mapSet_other _ _ _ _ hu, mapSet_other _ _ _ _ hu]
        exact h u

/- Any run of Name Index events preserves the keys property. -/
theorem runName_keys_aux (excluded tlds : Finset String) (evts : List NameEvent) :
    ∀ st : NameState,
      (∀ u, (st.mxid_to_servers u).isSome = true → (st.member_names u).isSome = true) →
      ∀ u, ((runName excluded tlds st evts).mxid_to_servers u).isSome = true →
        ((runName excluded tlds st evts).member_names u).isSome = true := by
  induction evts with
  | nil => exact fun st h => h
  | cons e es ih =>
    intro st h
    exact ih _ (nm_handle_member_keys excluded tlds st e h)

/- ---------------------------------------------------------------------
   Claim theorems for the Name Index and parse_name
   --------------------------------------------------------------------- -/

/-- C7: parse_name returns exactly the set of lower-cased tokens obtained
by scanning the bracketed groups of the display name, splitting each group
on comma, space and slash, keeping the tokens that contain a dot, splitting
each at its last dot into (label, tld) and accepting exactly when the label
is non-empty and the lower-cased tld belongs to the loaded TLD set; a name
with no bracketed group, including an empty or missing name, yields the
empty set. The model is a total Lean function, matching the guarantee that
parse_name never raises. -/
theorem claim_c7_parse_name :
    (∀ (tlds : Finset String) (name : Option String) (w : String),
        w ∈ parse_name tlds name
          ↔ ∃ g ∈ scanBracket (py_or_empty name).data, ∃ t ∈ splitSeps g,
              ('.') ∈ t ∧ (rsplitDot (t.map Char.toLower)).1 ≠ []
                ∧ String.mk (rsplitDot (t.map Char.toLower)).2 ∈ tlds
                ∧ w = String.mk (t.map Char.toLower))
      ∧ (∀ tlds : Finset String, parse_name tlds none = ∅)
      ∧ ∀ (tlds : Finset String) (s : String), scanBracket s.data = [] →
          parse_name tlds (some s) = ∅ := by
  refine ⟨fun tlds name w => ?_, fun tlds => rfl, fun tlds s h => ?_⟩
  · rw [parse_name, mem_chunk_fold]
    simp only [Finset.not_mem_empty, false_or]
    constructor
    · rintro ⟨g, hg, t, ht, hr⟩
      exact ⟨g, hg, t, ht, (word_result_eq_some tlds t w).mp hr⟩
    · rintro ⟨g, hg, t, ht, hr⟩
      exact ⟨g, hg, t, ht, (word_result_eq_some tlds t w).mpr hr⟩
  · rw [parse_name]
    rw [show py_or_empty (some s) = s from rfl, h]
    rfl

/-- Witness for C7 at a concrete display name and TLD set. -/
theorem claim_c7_witness :
    (("example.com" : String) ∈ parse_name {("com")} (some ("Alice [example.com]"))
      ↔ ∃ g ∈ scanBracket (py_or_empty (some ("Alice [example.com]"))).data,
          ∃ t ∈ splitSeps g,
            ('.') ∈ t ∧ (rsplitDot (t.map Char.toLower)).1 ≠ []
              ∧ String.mk (rsplitDot (t.map Char.toLower)).2 ∈ ({("com")} : Finset String)
              ∧ ("example.com" : String) = String.mk (t.map Char.toLower))
      ∧ parse_name {("com")} (some ("no brackets here")) = ∅ :=
  ⟨claim_c7_parse_name.1 {("com")} (some ("Alice [example.com]")) ("example.com"),
    claim_c7_parse_name.2.2 {("com")} ("no brackets here") (by decide)⟩

/-- C2: starting from empty maps, after any sequence of Name Index member
events (joins, display-name updates, non-join removals) the bidirectional
invariant holds: a user is in server_to_mxids[s] exactly when s is in
mxid_to_servers[u], and every server key present in server_to_mxids maps to
a non-empty set. -/
theorem claim_c2_name_index_invariant :
    ∀ (excluded tlds : Finset String) (evts : List NameEvent),
      (∀ s u, u ∈ (((runName excluded tlds initNameState evts).server_to_mxids s).getD ∅)
          ↔ s ∈ (((runName excluded tlds initNameState evts).mxid_to_servers u).getD ∅))
        ∧ ∀ s S, (runName excluded tlds initNameState evts).server_to_mxids s = some S →
            S.Nonempty :=
  fun excluded tlds evts => runName_inv_aux excluded tlds evts initNameState initNameState_inv

/-- Witness for C2: one join with display name Alice [ex.com] puts the pair
into both maps, and the inverse entry is non-empty. -/
theorem claim_c2_witness :
    (("@a:x" : String) ∈
        (((runName ∅ {("com")} initNameState
            [NameEvent.member ("@a:x") Membership.join (some ("Alice [ex.com]"))]).server_to_mxids
            ("ex.com")).getD ∅)
      ↔ ("ex.com" : String) ∈
        (((runName ∅ {("com")} initNameState
            [NameEvent.member ("@a:x") Membership.join (some ("Alice [ex.com]"))]).mxid_to_servers
            ("@a:x")).getD ∅))
    ∧ ({("@a:x")} : Finset String).Nonempty :=
  ⟨(claim_c2_name_index_invariant ∅ {("com")}
      [NameEvent.member ("@a:x") Membership.join (some ("Alice [ex.com]"))]).1 ("ex.com") ("@a:x"),
    (claim_c2_name_index_invariant ∅ {("com")}
      [NameEvent.member ("@a:x") Membership.join (some ("Alice [ex.com]"))]).2 ("ex.com")
      {("@a:x")} (by decide)⟩

/-- C10: every Name Index run from empty maps keeps each key of
mxid_to_servers also a key of member_names (so the directory and ping
queries never look up a missing name); a non-join membership event never
touches member_names, so a removed member's last display name stays
recorded even though, by the bidirectional invariant, the removed member
appears in neither server mapping afterwards. -/
theorem claim_c10_names_superset :
    (∀ (excluded tlds : Finset String) (evts : List NameEvent) (u : String),
        ((runName excluded tlds initNameState evts).mxid_to_servers u).isSome = true →
        ((runName excluded tlds initNameState evts).member_names u).isSome = true)
      ∧ (∀ (excluded tlds : Finset String) (st : NameState) (u : String) (mem : Membership)
          (d : Option String), mem ≠ Membership.join →
          (NameMonitor.handle_member excluded tlds st
              (NameEvent.member u mem d)).member_names = st.member_names)
      ∧ ∀ (excluded tlds : Finset String) (st : NameState) (u : String) (mem : Membership)
          (d : Option String), mem ≠ Membership.join → u ∉ excluded → NameInv st →
          (NameMonitor.handle_member excluded tlds st
              (NameEvent.member u mem d)).mxid_to_servers u = none
            ∧ ∀ s, u ∉ (((NameMonitor.handle_member excluded tlds st
                (NameEvent.member u mem d)).server_to_mxids s).getD ∅) := by
  refine ⟨fun excluded tlds evts =>
      runName_keys_aux excluded tlds evts initNameState (fun u hc => by cases hc),
    fun excluded tlds st u mem d hmem => ?_, fun excluded tlds st u mem d hmem hx hinv => ?_⟩
  · rw [NameMonitor.handle_member]
    split_ifs with h1
    · rfl
    · exact remove_member_names st u
  · have hstep : NameMonitor.handle_member excluded tlds st (NameEvent.member u mem d)
        = remove_member st u := by
      rw [NameMonitor.handle_member]
      rw [if_neg hx, if_pos hmem]
    rw [hstep]
    have hinv2 := remove_member_inv st u hinv
    constructor
    · rw [remove_member_fwd, mapSet_same]
    · intro s hs
      have := (hinv2.1 s u).mp hs
      rw [remove_member_fwd, mapSet_same] at this
      simp at this

/- ---------------------------------------------------------------------
   Screening engine: step lemmas
   --------------------------------------------------------------------- -/

/- A join whose sender is a space member, the bot, or already welcomed is
skipped without effects. -/
theorem handle_join_skip (cfg : Config) (st : BotState) (sender evtId : String) (now : ℚ)
    (fetch : FetchOutcome) (msgId : String)
    (h : sender ∈ st.spaceMembers ∨ sender = cfg.botMxid ∨ (st.welcomedUsers sender).isSome) :
    MuninnBot.handle_join cfg st sender evtId now fetch msgId = (st, []) := by
  rw [MuninnBot.handle_join, if_pos h]

/- A fresh join under a limiter count of at most 5 is screened: the welcome
is sent, the user is recorded, the count (reset when the window is passed)
is incremented and the timestamp set to now. -/
theorem handle_join_screens (cfg : Config) (st : BotState) (sender evtId : String) (now : ℚ)
    (fetch : FetchOutcome) (msgId : String)
    (h1 : sender ∉ st.spaceMembers) (h2 : sender ≠ cfg.botMxid)
    (h3 : st.welcomedUsers sender = none)
    (h4 : st.limiterTs + 60 < now ∨ st.limiterCount ≤ 5) :
    MuninnBot.handle_join cfg st sender evtId now fetch msgId =
      ({ st with
          welcomedUsers := mapSet st.welcomedUsers sender (some (some msgId))
          pendingApps :=
            if classify sender fetch = JoinType.NEW_IS_LISTED_SUPPORT then
              mapSet st.pendingApps msgId (some (some sender))
            else st.pendingApps
          limiterCount := (if st.limiterTs + 60 < now then 0 else st.limiterCount) + 1
          limiterTs := now },
        check_acts cfg.screeningRoom sender evtId true fetch) := by
  have hskip : ¬(sender ∈ st.spaceMembers ∨ sender = cfg.botMxid
      ∨ (st.welcomedUsers sender).isSome) := by
    simp [h1, h2, h3]
  rw [MuninnBot.handle_join, if_neg hskip]
  by_cases hr : st.limiterTs + 60 < now
  · rw [if_pos hr, if_pos hr]
    simp only [MuninnBot.check_member, h3]
  · rw [if_neg hr, if_neg (Nat.not_lt.mpr (h4.resolve_left hr)), if_neg hr]
    simp only [MuninnBot.check_member, h3]

/- Field-level consequences of handle_join_screens, convenient for
chaining. -/
theorem handle_join_screens_fields (cfg : Config) (st : BotState) (sender evtId : String)
    (now : ℚ) (fetch : FetchOutcome) (msgId : String)
    (h1 : sender ∉ st.spaceMembers) (h2 : sender ≠ cfg.botMxid)
    (h3 : st.welcomedUsers sender = none)
    (h4 : st.limiterTs + 60 < now ∨ st.limiterCount ≤ 5) :
    (MuninnBot.handle_join cfg st sender evtId now fetch msgId).1.welcomedUsers
        = mapSet st.welcomedUsers sender (some (some msgId))
      ∧ (MuninnBot.handle_join cfg st sender evtId now fetch msgId).1.spaceMembers
        = st.spaceMembers
      ∧ (MuninnBot.handle_join cfg st sender evtId now fetch msgId).1.limiterCount
        = (if st.limiterTs + 60 < now then 0 else st.limiterCount) + 1
      ∧ (MuninnBot.handle_join cfg st sender evtId now fetch msgId).1.limiterTs = now
      ∧ (MuninnBot.handle_join cfg st sender evtId now fetch msgId).2
        = check_acts cfg.screeningRoom sender evtId true fetch := by
  rw [handle_join_screens cfg st sender evtId now fetch msgId h1 h2 h3 h4]
  exact ⟨rfl, rfl, rfl, rfl, rfl⟩

/- A fresh join inside the window with a count above 5 is dropped: a logged
warning, no message, no state change. -/
theorem handle_join_dropped (cfg : Config) (st : BotState) (sender evtId : String) (now : ℚ)
    (fetch : FetchOutcome) (msgId : String)
    (h1 : sender ∉ st.spaceMembers) (h2 : sender ≠ cfg.botMxid)
    (h3 : st.welcomedUsers sender = none)
    (h4 : ¬st.limiterTs + 60 < now) (h5 : 5 < st.limiterCount) :
    MuninnBot.handle_join cfg st sender evtId now fetch msgId = (st, [Action.logWarning]) := by
  have hskip : ¬(sender ∈ st.spaceMembers ∨ sender = cfg.botMxid
      ∨ (st.welcomedUsers sender).isSome) := by
    simp [h1, h2, h3]
  rw [MuninnBot.handle_join, if_neg hskip, if_neg h4, if_pos h5]

/- The welcomed_users map after check_member: the sender's entry is created
only when absent; all other entries keep their value. -/
theorem check_member_welcomed (cfg : Config) (st : BotState) (room sender evtId : String)
    (ij : Bool) (fetch : FetchOutcome) (msgId : String) (u : String) :
    (MuninnBot.check_member cfg st room sender evtId ij fetch msgId).1.welcomedUsers u
      = if u = sender ∧ st.welcomedUsers sender = none then some (some msgId)
        else st.welcomedUsers u := by
  simp only [MuninnBot.check_member]
  cases h : st.welcomedUsers sender with
  | some v => simp [h]
  | none =>
    by_cases hu : u = sender
    · subst hu
      simp [mapSet_same, h]
    · simp [mapSet_other _ _ _ _ hu, hu]

/- The pending_applications map after check_member. -/
theorem check_member_pending (cfg : Config) (st : BotState) (room sender evtId : String)
    (ij : Bool) (fetch : FetchOutcome) (msgId : String) :
    (MuninnBot.check_member cfg st room sender evtId ij fetch msgId).1.pendingApps
      = if classify sender fetch = JoinType.NEW_IS_LISTED_SUPPORT then
          mapSet st.pendingApps msgId (some (some sender))
        else st.pendingApps := by
  simp only [MuninnBot.check_member]

/- check_member leaves the space cache and limiter untouched and emits
exactly the check_acts effects. -/
theorem check_member_other_fields (cfg : Config) (st : BotState) (room sender evtId : String)
    (ij : Bool) (fetch : FetchOutcome) (msgId : String) :
    (MuninnBot.check_member cfg st room sender evtId ij fetch msgId).1.spaceMembers = st.spaceMembers
      ∧ (MuninnBot.check_member cfg st room sender evtId ij fetch msgId).1.limiterCount = st.limiterCount
      ∧ (MuninnBot.check_member cfg st room sender evtId ij fetch msgId).1.limiterTs = st.limiterTs
      ∧ (MuninnBot.check_member cfg st room sender evtId ij fetch msgId).2
          = check_acts room sender evtId ij fetch :=
  ⟨rfl, rfl, rfl, rfl⟩

/- handle_leave with no entry is a no-op. -/
theorem handle_leave_absent (cfg : Config) (st : BotState) (u : String)
    (h : st.welcomedUsers u = none) :
    MuninnBot.handle_leave cfg st u = (st, []) := by
  simp only [MuninnBot.handle_leave, h]

/- handle_leave with a stored message id clears it and redacts once. -/
theorem handle_leave_stored (cfg : Config) (st : BotState) (u evtId : String)
    (h : st.welcomedUsers u = some (some evtId)) :
    MuninnBot.handle_leave cfg st u =
      ({ st with welcomedUsers := mapSet st.welcomedUsers u (some none) },
        [Action.redact cfg.screeningRoom evtId userLeftReason]) := by
  simp only [MuninnBot.handle_leave, h]

/- handle_leave with an already-cleared entry rewrites it to None and
redacts nothing. -/
theorem handle_leave_cleared (cfg : Config) (st : BotState) (u : String)
    (h : st.welcomedUsers u = some none) :
    MuninnBot.handle_leave cfg st u =
      ({ st with welcomedUsers := mapSet st.welcomedUsers u (some none) }, []) := by
  simp only [MuninnBot.handle_leave, h]

/- The reaction handler never touches welcomed_users, the space cache or
the limiter. -/
theorem automatic_application_untouched (cfg : Config) (st : BotState) (sender : String)
    (annotated : Bool) (key room target : String) (fetched : Option FetchedEvent) :
    (MuninnBot.automatic_application cfg st sender annotated key room target fetched).1.welcomedUsers
        = st.welcomedUsers
      ∧ (MuninnBot.automatic_application cfg st sender annotated key room target fetched).1.spaceMembers
        = st.spaceMembers
      ∧ (MuninnBot.automatic_application cfg st sender annotated key room target fetched).1.limiterCount
        = st.limiterCount := by
  rw [MuninnBot.automatic_application.eq_def]
  by_cases h0 : sender = cfg.botMxid ∨ annotated = false ∨ py_startswith key thumbs_up = false
  · rw [if_pos h0]
    exact ⟨rfl, rfl, rfl⟩
  · rw [if_neg h0]
    cases hc : st.pendingApps target with
    | some uid =>
      dsimp only
      by_cases he : uid = some sender
      · rw [if_pos he]
        exact ⟨rfl, rfl, rfl⟩
      · rw [if_neg he]
        exact ⟨rfl, rfl, rfl⟩
    | none =>
      cases fetched with
      | none => exact ⟨rfl, rfl, rfl⟩
      | some fe =>
        dsimp only
        by_cases he : (if fe.sender = cfg.botMxid then fe.marker else none) = some fe.sender
        · rw [if_pos he]
          exact ⟨rfl, rfl, rfl⟩
        · rw [if_neg he]
          exact ⟨rfl, rfl, rfl⟩

/- No action list emitted by the reaction handler contains a welcome
message or a redaction. -/
theorem automatic_application_acts (cfg : Config) (st : BotState) (sender : String)
    (annotated : Bool) (key room target : String) (fetched : Option FetchedEvent) (u : String) :
    countJoinWelcomes u (MuninnBot.automatic_application cfg st sender annotated key room
        target fetched).2 = 0
      ∧ countRedacts (MuninnBot.automatic_application cfg st sender annotated key room
        target fetched).2 = 0 := by
  rw [MuninnBot.automatic_application.eq_def]
  by_cases h0 : sender = cfg.botMxid ∨ annotated = false ∨ py_startswith key thumbs_up = false
  · rw [if_pos h0]
    exact ⟨rfl, rfl⟩
  · rw [if_neg h0]
    cases hc : st.pendingApps target with
    | some uid =>
      dsimp only
      by_cases he : uid = some sender
      · rw [if_pos he]
        exact ⟨rfl, rfl⟩
      · rw [if_neg he]
        exact ⟨rfl, rfl⟩
    | none =>
      cases fetched with
      | none => exact ⟨rfl, rfl⟩
      | some fe =>
        dsimp only
        by_cases he : (if fe.sender = cfg.botMxid then fe.marker else none) = some fe.sender
        · rw [if_pos he]
          exact ⟨rfl, rfl⟩
        · rw [if_neg he]
          exact ⟨rfl, rfl⟩

/- Join-path welcome counting over check_acts: one message exactly when the
sender is the counted user and the run is a join. -/
theorem countJoinWelcomes_check_acts (u room sender evtId : String) (ij : Bool)
    (fetch : FetchOutcome) :
    countJoinWelcomes u (check_acts room sender evtId ij fetch)
      = if sender = u ∧ ij = true then 1 else 0 := by
  rw [check_acts, countJoinWelcomes]
  by_cases hs : sender = u
  · subst hs
    cases hf : fetch_support_well_known fetch <;> cases ij <;> simp [List.filter]
  · have hb : (sender == u) = false := beq_eq_false_iff_ne.mpr hs
    cases hf : fetch_support_well_known fetch <;> cases ij <;> simp [List.filter, hb, hs]

/- check_acts never contains a redaction. -/
theorem countRedacts_check_acts (room sender evtId : String) (ij : Bool) (fetch : FetchOutcome) :
    countRedacts (check_acts room sender evtId ij fetch) = 0 := by
  rw [check_acts, countRedacts]
  cases hf : fetch_support_well_known fetch <;> simp [List.filter]

/- A non-isSome optional is none. -/
theorem not_isSome_none {α : Type} (o : Option α) (h : ¬o.isSome = true) : o = none := by
  cases o with
  | none => rfl
  | some v => exact absurd rfl h

/- Field-level consequences of handle_leave when the sender has an entry:
the entry is overwritten with None, no welcome is emitted, and a redaction
is emitted exactly when the stored value was an id. -/
theorem handle_leave_present (cfg : Config) (st : BotState) (s : String) (v : Option String)
    (h : st.welcomedUsers s = some v) :
    (MuninnBot.handle_leave cfg st s).1.welcomedUsers = mapSet st.welcomedUsers s (some none)
      ∧ (∀ w, countJoinWelcomes w (MuninnBot.handle_leave cfg st s).2 = 0)
      ∧ countRedacts (MuninnBot.handle_leave cfg st s).2 = (if v.isSome then 1 else 0) := by
  cases v with
  | some evtId =>
    rw [handle_leave_stored cfg st s evtId h]
    exact ⟨rfl, fun w => rfl, rfl⟩
  | none =>
    rw [handle_leave_cleared cfg st s h]
    exact ⟨rfl, fun w => rfl, rfl⟩

/- The join path sends at most one more welcome to u than the welcomed map
already accounts for: the trace total is bounded by 1 when u has no entry
and by 0 once an entry exists. -/
theorem joinWelcomes_le (cfg : Config) (u : String) (es : List BotEvent) :
    ∀ st : BotState,
      joinWelcomes cfg u st es ≤ (if (st.welcomedUsers u).isSome then 0 else 1) := by
  induction es with
  | nil =>
    intro st
    rw [joinWelcomes]
    exact Nat.zero_le _
  | cons e es ih =>
    intro st
    rw [joinWelcomes]
    cases e with
    | joinScreen s eid now f m =>
      simp only [step]
      by_cases hskip : s ∈ st.spaceMembers ∨ s = cfg.botMxid ∨ (st.welcomedUsers s).isSome
      · rw [handle_join_skip cfg st s eid now f m hskip]
        rw [show countJoinWelcomes u [] = 0 from rfl, Nat.zero_add]
        exact ih st
      · push_neg at hskip
        obtain ⟨h1, h2, h3⟩ := hskip
        have h3' : st.welcomedUsers s = none := not_isSome_none _ h3
        by_cases hscr : st.limiterTs + 60 < now ∨ st.limiterCount ≤ 5
        · obtain ⟨hw', hsp', hc', ht', hacts⟩ :=
            handle_join_screens_fields cfg st s eid now f m h1 h2 h3' hscr
          rw [hacts, countJoinWelcomes_check_acts]
          have hih := ih (MuninnBot.handle_join cfg st s eid now f m).1
          by_cases hsu : s = u
          · subst hsu
            rw [if_pos ⟨rfl, rfl⟩]
            rw [show (MuninnBot.handle_join cfg st s eid now f m).1.welcomedUsers s
                = some (some m) from by rw [hw', mapSet_same]] at hih
            rw [h3']
            simp only [Option.isSome_some, if_true, Option.isSome_none, Bool.false_eq_true,
              if_false] at hih ⊢
            omega
          · rw [if_neg (fun hp => hsu hp.1)]
            rw [show (MuninnBot.handle_join cfg st s eid now f m).1.welcomedUsers u
                = st.welcomedUsers u from by
              rw [hw', mapSet_other _ _ _ _ (fun hp => hsu hp.symm)]] at hih
            rw [Nat.zero_add]
            exact hih
        · push_neg at hscr
          obtain ⟨hnr, hc6⟩ := hscr
          rw [handle_join_dropped cfg st s eid now f m h1 h2 h3' (not_lt.mpr hnr) hc6]
          rw [show countJoinWelcomes u [Action.logWarning] = 0 from rfl, Nat.zero_add]
          exact ih st
    | leaveScreen s =>
      simp only [step]
      cases hw : st.welcomedUsers s with
      | none =>
        rw [handle_leave_absent cfg st s hw]
        rw [show countJoinWelcomes u [] = 0 from rfl, Nat.zero_add]
        exact ih st
      | some v =>
        obtain ⟨hwset, hcw, -⟩ := handle_leave_present cfg st s v hw
        rw [hcw u, Nat.zero_add]
        have hih := ih (MuninnBot.handle_leave cfg st s).1
        by_cases hsu : s = u
        · subst hsu
          rw [show (MuninnBot.handle_leave cfg st s).1.welcomedUsers s = some none from by
            rw [hwset, mapSet_same]] at hih
          refine le_trans hih ?_
          simp [hw]
        · rw [show (MuninnBot.handle_leave cfg st s).1.welcomedUsers u = st.welcomedUsers u
              from by rw [hwset, mapSet_other _ _ _ _ (fun hp => hsu hp.symm)]] at hih
          exact hih
    | recheckCmd room s eid f m =>
      simp only [step]
      obtain ⟨-, -, -, hacts⟩ := check_member_other_fields cfg st room s eid false f m
      rw [hacts, countJoinWelcomes_check_acts]
      rw [if_neg (fun hp => Bool.false_ne_true hp.2), Nat.zero_add]
      have hih := ih (MuninnBot.check_member cfg st room s eid false f m).1
      by_cases hcond : u = s ∧ st.welcomedUsers s = none
      · rw [show (MuninnBot.check_member cfg st room s eid false f m).1.welcomedUsers u
            = some (some m) from by rw [check_member_welcomed, if_pos hcond]] at hih
        obtain ⟨hus, hnone⟩ := hcond
        subst hus
        rw [hnone]
        exact le_trans hih (by simp)
      · rw [show (MuninnBot.check_member cfg st room s eid false f m).1.welcomedUsers u
            = st.welcomedUsers u from by rw [check_member_welcomed, if_neg hcond]] at hih
        exact hih
    | applyCmd room s =>
      simp only [step]
      rw [show countJoinWelcomes u (MuninnBot.manual_application cfg st room s).2 = 0 from rfl,
        Nat.zero_add]
      exact ih st
    | reaction s annot key room target fetched =>
      simp only [step]
      obtain ⟨hcw, -⟩ := automatic_application_acts cfg st s annot key room target fetched u
      rw [hcw, Nat.zero_add]
      have hih := ih (MuninnBot.automatic_application cfg st s annot key room target fetched).1
      rw [(automatic_application_untouched cfg st s annot key room target fetched).1] at hih
      exact hih

/- Redactions for u happen at most once: the trace total from a state
whose entry is already cleared is 0, otherwise at most 1. -/
theorem leaveRedacts_le (cfg : Config) (u : String) (es : List BotEvent) :
    ∀ st : BotState,
      leaveRedacts cfg u st es
        ≤ (match st.welcomedUsers u with
            | some none => 0
            | _ => 1) := by
  induction es with
  | nil =>
    intro st
    rw [leaveRedacts]
    exact Nat.zero_le _
  | cons e es ih =>
    intro st
    rw [leaveRedacts]
    have hmono : ∀ st' : BotState,
        (st'.welcomedUsers u = st.welcomedUsers u ∨
          (st.welcomedUsers u = none ∧ ∃ m, st'.welcomedUsers u = some (some m))) →
        leaveRedacts cfg u st' es
          ≤ (match st.welcomedUsers u with
              | some none => 0
              | _ => 1) := by
      intro st' hcase
      refine le_trans (ih st') ?_
      rcases hcase with heq | ⟨hnone, m, hsome⟩
      · rw [heq]
      · rw [hnone, hsome]
    cases e with
    | joinScreen s eid now f m =>
      rw [if_neg (by simp), Nat.zero_add]
      simp only [step]
      by_cases hskip : s ∈ st.spaceMembers ∨ s = cfg.botMxid ∨ (st.welcomedUsers s).isSome
      · rw [handle_join_skip cfg st s eid now f m hskip]
        exact hmono st (Or.inl rfl)
      · push_neg at hskip
        obtain ⟨h1, h2, h3⟩ := hskip
        have h3' : st.welcomedUsers s = none := not_isSome_none _ h3
        by_cases hscr : st.limiterTs + 60 < now ∨ st.limiterCount ≤ 5
        · obtain ⟨hw', -, -, -, -⟩ :=
            handle_join_screens_fields cfg st s eid now f m h1 h2 h3' hscr
          refine hmono _ ?_
          by_cases hsu : s = u
          · subst hsu
            exact Or.inr ⟨h3', m, by rw [hw', mapSet_same]⟩
          · exact Or.inl (by rw [hw', mapSet_other _ _ _ _ (fun hp => hsu hp.symm)])
        · push_neg at hscr
          obtain ⟨hnr, hc6⟩ := hscr
          rw [handle_join_dropped cfg st s eid now f m h1 h2 h3' (not_lt.mpr hnr) hc6]
          exact hmono st (Or.inl rfl)
    | leaveScreen s =>
      by_cases hsu : s = u
      · subst hsu
        rw [if_pos rfl]
        simp only [step]
        cases hw : st.welcomedUsers s with
        | none =>
          rw [handle_leave_absent cfg st s hw]
          rw [show countRedacts [] = 0 from rfl, Nat.zero_add]
          refine le_trans (ih st) ?_
          rw [hw]
        | some v =>
          obtain ⟨hwset, -, hcr⟩ := handle_leave_present cfg st s v hw
          have hih : leaveRedacts cfg s (MuninnBot.handle_leave cfg st s).1 es ≤ 0 := by
            have h0 := ih (MuninnBot.handle_leave cfg st s).1
            rw [show (MuninnBot.handle_leave cfg st s).1.welcomedUsers s = some none from by
              rw [hwset, mapSet_same]] at h0
            exact h0
          rw [hcr]
          cases v with
          | some evtId =>
            show 1 + _ ≤ 1
            omega
          | none =>
            show 0 + _ ≤ 0
            omega
      · rw [if_neg (by simp [hsu]), Nat.zero_add]
        simp only [step]
        cases hw : st.welcomedUsers s with
        | none =>
          rw [handle_leave_absent cfg st s hw]
          exact hmono st (Or.inl rfl)
        | some v =>
          obtain ⟨hwset, -, -⟩ := handle_leave_present cfg st s v hw
          refine hmono _ (Or.inl ?_)
          rw [hwset, mapSet_other _ _ _ _ (fun hp => hsu hp.symm)]
    | recheckCmd room s eid f m =>
      rw [if_neg (by simp), Nat.zero_add]
      simp only [step]
      refine hmono _ ?_
      rw [check_member_welcomed]
      split_ifs with hcond
      · obtain ⟨hus, hnone⟩ := hcond
        subst hus
        exact Or.inr ⟨hnone, m, rfl⟩
      · exact Or.inl rfl
    | applyCmd room s =>
      rw [if_neg (by simp), Nat.zero_add]
      simp only [step]
      exact hmono st (Or.inl rfl)
    | reaction s annot key room target fetched =>
      rw [if_neg (by simp), Nat.zero_add]
      simp only [step]
      exact hmono _ (Or.inl (by
        rw [(automatic_application_untouched cfg st s annot key room target fetched).1]))

/- Evaluation of the reaction handler on the cached path: when the target
is already in pending_applications, the reaction either confirms (cached
value equals the reactor: one application message, entry cleared) or does
nothing. -/
theorem automatic_application_cached (cfg : Config) (st : BotState) (sender key room target : String)
    (fetched : Option FetchedEvent) (cached : Option String)
    (hpend : st.pendingApps target = some cached)
    (hbot : sender ≠ cfg.botMxid) (hkey : py_startswith key thumbs_up = true) :
    MuninnBot.automatic_application cfg st sender true key room target fetched
      = if cached = some sender then
          ({ st with pendingApps := mapSet st.pendingApps target (some none) }, [Action.sendApplication room sender])
        else (st, []) := by
  rw [MuninnBot.automatic_application.eq_def, if_neg (by simp [hbot, hkey]), hpend]

/- classify on a successful fetch. -/
theorem classify_ok (sender : String) (f : FetchOutcome) (wk : SupportWellKnown)
    (hf : fetch_support_well_known f = Except.ok wk) :
    classify sender f
      = if wk.has_contact sender then JoinType.NEW_IS_LISTED_SUPPORT
        else JoinType.NEW_NOT_LISTED_SUPPORT := by
  rw [classify, hf]

/- classify on a failed fetch. -/
theorem classify_err (sender : String) (f : FetchOutcome) (e : FetchFailure)
    (hf : fetch_support_well_known f = Except.error e) :
    classify sender f = JoinType.NEW_WELL_KNOWN_MISSING := by
  rw [classify, hf]

/- ---------------------------------------------------------------------
   Claim theorems for the screening engine
   --------------------------------------------------------------------- -/

/-- C5: once a WelcomedUser entry exists for a user, every later join event
from them in the screening room is a no-op (no fetch, no message, no state
change); no join or recheck run of _check_member ever replaces an existing
entry's value (dict.setdefault); hence the join path sends at most one
welcome message per user for the lifetime of the process, starting from the
initial state. -/
theorem claim_c5_welcome_idempotent :
    (∀ (cfg : Config) (st : BotState) (sender evtId : String) (now : ℚ)
        (fetch : FetchOutcome) (msgId : String), (st.welcomedUsers sender).isSome = true →
        MuninnBot.handle_join cfg st sender evtId now fetch msgId = (st, []))
      ∧ (∀ (cfg : Config) (st : BotState) (room sender evtId : String) (ij : Bool)
          (fetch : FetchOutcome) (msgId : String) (v : Option String),
          st.welcomedUsers sender = some v →
          (MuninnBot.check_member cfg st room sender evtId ij fetch msgId).1.welcomedUsers sender
            = some v)
      ∧ ∀ (cfg : Config) (space : List String) (u : String) (es : List BotEvent),
          joinWelcomes cfg u (initState space) es ≤ 1 := by
  refine ⟨fun cfg st sender evtId now fetch msgId h => ?_,
    fun cfg st room sender evtId ij fetch msgId v h => ?_, fun cfg space u es => ?_⟩
  · exact handle_join_skip cfg st sender evtId now fetch msgId (Or.inr (Or.inr h))
  · rw [check_member_welcomed]
    rw [if_neg (fun hp => by rw [h] at hp; exact Option.noConfusion hp.2)]
    exact h
  · exact le_trans (joinWelcomes_le cfg u es (initState space)) (by simp [initState])

/-- Witness for C5 at a concrete welcomed state and trace. -/
theorem claim_c5_witness :
    MuninnBot.handle_join cfg0 stWelcomed ("@alice:x") ("$e") 5 FetchOutcome.netError ("$m2")
        = (stWelcomed, [])
      ∧ (MuninnBot.check_member cfg0 stWelcomed ("!r") ("@alice:x") ("$e") false
          FetchOutcome.netError ("$m2")).1.welcomedUsers ("@alice:x") = some (some ("$w"))
      ∧ joinWelcomes cfg0 ("@alice:x") (initState [])
          [BotEvent.joinScreen ("@alice:x") ("$e") 5 FetchOutcome.netError ("$m")] ≤ 1 :=
  ⟨claim_c5_welcome_idempotent.1 cfg0 stWelcomed ("@alice:x") ("$e") 5 FetchOutcome.netError
      ("$m2") (by decide),
    claim_c5_welcome_idempotent.2.1 cfg0 stWelcomed ("!r") ("@alice:x") ("$e") false
      FetchOutcome.netError ("$m2") (some ("$w")) (by decide),
    claim_c5_welcome_idempotent.2.2 cfg0 [] ("@alice:x")
      [BotEvent.joinScreen ("@alice:x") ("$e") 5 FetchOutcome.netError ("$m")]⟩

/-- C6: a leave or ban in the screening room for a user with no
WelcomedUser entry is a no-op; with a stored message id the id is read and
the entry overwritten with None, and a redaction with reason User left is
issued exactly for that id; with an already-cleared entry nothing is
redacted. Over any event trace from the initial state, at most one
redaction is ever issued for a given user's leave events, even when the
leave is delivered twice. -/
theorem claim_c6_redact_once :
    (∀ (cfg : Config) (st : BotState) (u : String), st.welcomedUsers u = none →
        MuninnBot.handle_leave cfg st u = (st, []))
      ∧ (∀ (cfg : Config) (st : BotState) (u evtId : String),
          st.welcomedUsers u = some (some evtId) →
          (MuninnBot.handle_leave cfg st u).1.welcomedUsers u = some none
            ∧ (MuninnBot.handle_leave cfg st u).2
              = [Action.redact cfg.screeningRoom evtId userLeftReason])
      ∧ (∀ (cfg : Config) (st : BotState) (u : String), st.welcomedUsers u = some none →
          (MuninnBot.handle_leave cfg st u).2 = [])
      ∧ ∀ (cfg : Config) (space : List String) (u : String) (es : List BotEvent),
          leaveRedacts cfg u (initState space) es ≤ 1 := by
  refine ⟨handle_leave_absent, fun cfg st u evtId h => ?_, fun cfg st u h => ?_,
    fun cfg space u es => ?_⟩
  · rw [handle_leave_stored cfg st u evtId h]
    exact ⟨mapSet_same _ _ _, rfl⟩
  · rw [handle_leave_cleared cfg st u h]
  · exact leaveRedacts_le cfg u es (initState space)

/-- Witness for C6 at concrete states, including a doubled leave event. -/
theorem claim_c6_witness :
    MuninnBot.handle_leave cfg0 (initState []) ("@b:x") = (initState [], [])
      ∧ ((MuninnBot.handle_leave cfg0 stWelcomed ("@alice:x")).1.welcomedUsers ("@alice:x")
            = some none
          ∧ (MuninnBot.handle_leave cfg0 stWelcomed ("@alice:x")).2
            = [Action.redact cfg0.screeningRoom ("$w") userLeftReason])
      ∧ (MuninnBot.handle_leave cfg0 stCleared ("@alice:x")).2 = []
      ∧ leaveRedacts cfg0 ("@alice:x") (initState [])
          [BotEvent.leaveScreen ("@alice:x"), BotEvent.leaveScreen ("@alice:x")] ≤ 1 :=
  ⟨claim_c6_redact_once.1 cfg0 (initState []) ("@b:x") rfl,
    claim_c6_redact_once.2.1 cfg0 stWelcomed ("@alice:x") ("$w") (by decide),
    claim_c6_redact_once.2.2.1 cfg0 stCleared ("@alice:x") (by decide),
    claim_c6_redact_once.2.2.2 cfg0 [] ("@alice:x")
      [BotEvent.leaveScreen ("@alice:x"), BotEvent.leaveScreen ("@alice:x")]⟩

/-- C8: a NEW_IS_LISTED_SUPPORT run of _check_member caches
PendingApplication[sent message id] = applicant; afterwards a thumbs-up
annotation reaction from the stamped applicant on that message produces
exactly one application-received message and clears the cache entry to
None; a second identical reaction from the applicant produces no message,
and a thumbs-up from any other (non-bot) user produces no message and
leaves the entry unchanged. -/
theorem claim_c8_reaction_confirmation :
    (∀ (cfg : Config) (st : BotState) (room sender evtId : String) (ij : Bool)
        (fetch : FetchOutcome) (msgId : String),
        classify sender fetch = JoinType.NEW_IS_LISTED_SUPPORT →
        (MuninnBot.check_member cfg st room sender evtId ij fetch msgId).1.pendingApps msgId
          = some (some sender))
      ∧ ∀ (cfg : Config) (st : BotState) (applicant key room msg : String)
          (fe fe2 : Option FetchedEvent),
          st.pendingApps msg = some (some applicant) → applicant ≠ cfg.botMxid →
          py_startswith key thumbs_up = true →
          ((MuninnBot.automatic_application cfg st applicant true key room msg fe).2
              = [Action.sendApplication room applicant]
            ∧ (MuninnBot.automatic_application cfg st applicant true key room msg
                fe).1.pendingApps msg = some none
            ∧ (MuninnBot.automatic_application cfg
                (MuninnBot.automatic_application cfg st applicant true key room msg fe).1
                applicant true key room msg fe2).2 = []
            ∧ ∀ (other : String) (fe3 : Option FetchedEvent), other ≠ applicant →
                other ≠ cfg.botMxid →
                (MuninnBot.automatic_application cfg st other true key room msg fe3).2 = []
                  ∧ (MuninnBot.automatic_application cfg st other true key room msg
                      fe3).1.pendingApps msg = some (some applicant)) := by
  constructor
  · intro cfg st room sender evtId ij fetch msgId hcl
    rw [check_member_pending, if_pos hcl, mapSet_same]
  · intro cfg st applicant key room msg fe fe2 hpend hbot hkey
    have h1 := automatic_application_cached cfg st applicant key room msg fe (some applicant)
      hpend hbot hkey
    rw [if_pos rfl] at h1
    have hc2 : (MuninnBot.automatic_application cfg st applicant true key room msg
        fe).1.pendingApps msg = some none := by
      rw [h1]
      exact mapSet_same _ _ _
    refine ⟨by rw [h1], hc2, ?_, ?_⟩
    · have h2 := automatic_application_cached cfg
        (MuninnBot.automatic_application cfg st applicant true key room msg fe).1
        applicant key room msg fe2 none hc2 hbot hkey
      rw [if_neg (fun hp => Option.noConfusion hp)] at h2
      rw [h2]
    · intro other fe3 hother hobot
      have h3 := automatic_application_cached cfg st other key room msg fe3 (some applicant)
        hpend hobot hkey
      rw [if_neg (fun hp => hother ((Option.some_injective _ hp).symm))] at h3
      rw [h3]
      exact ⟨rfl, hpend⟩

/-- Witness for C8 at a concrete welcomed-and-cached state. -/
theorem claim_c8_witness :
    (MuninnBot.check_member cfg0 (initState []) ("!r") ("@alice:x") ("$e") true
        (FetchOutcome.response 200 (some { contacts := [{ role := ("m.role.admin"), email_address := (""), matrix_id := ("@alice:x") }], support_page := ("") })) ("$w")).1.pendingApps ("$w")
      = some (some ("@alice:x"))
    ∧ ((MuninnBot.automatic_application cfg0 stPending ("@alice:x") true thumbs_up ("!r") ("$w")
          none).2 = [Action.sendApplication ("!r") ("@alice:x")]
        ∧ (MuninnBot.automatic_application cfg0 stPending ("@alice:x") true thumbs_up ("!r")
            ("$w") none).1.pendingApps ("$w") = some none
        ∧ (MuninnBot.automatic_application cfg0
            (MuninnBot.automatic_application cfg0 stPending ("@alice:x") true thumbs_up ("!r")
              ("$w") none).1 ("@alice:x") true thumbs_up ("!r") ("$w") none).2 = []
        ∧ ((MuninnBot.automatic_application cfg0 stPending ("@carol:x") true thumbs_up ("!r")
              ("$w") none).2 = []
            ∧ (MuninnBot.automatic_application cfg0 stPending ("@carol:x") true thumbs_up ("!r")
                ("$w") none).1.pendingApps ("$w") = some (some ("@alice:x")))) :=
  ⟨claim_c8_reaction_confirmation.1 cfg0 (initState []) ("!r") ("@alice:x") ("$e") true
      (FetchOutcome.response 200 (some { contacts := [{ role := ("m.role.admin"), email_address := (""), matrix_id := ("@alice:x") }], support_page := ("") })) ("$w") (by decide),
    (claim_c8_reaction_confirmation.2 cfg0 stPending ("@alice:x") thumbs_up ("!r") ("$w")
        none none (by decide) (by decide) (by decide)).1,
    (claim_c8_reaction_confirmation.2 cfg0 stPending ("@alice:x") thumbs_up ("!r") ("$w")
        none none (by decide) (by decide) (by decide)).2.1,
    (claim_c8_reaction_confirmation.2 cfg0 stPending ("@alice:x") thumbs_up ("!r") ("$w")
        none none (by decide) (by decide) (by decide)).2.2.1,
    (claim_c8_reaction_confirmation.2 cfg0 stPending ("@alice:x") thumbs_up ("!r") ("$w")
        none none (by decide) (by decide) (by decide)).2.2.2 ("@carol:x") none (by decide)
      (by decide)⟩

/-- C1: evaluation of the reaction handler at the claim's scenario — cache
miss, thumbs-up annotation reaction by @alice:x, fetched target sent by the
bot and stamped with @alice:x. The handler fetches the target and caches
the stamped user id, but, because the source rebinds evt to the fetched
event before the comparison user_id == evt.sender, it compares the stamp
against the bot rather than the reactor: no application-received message is
sent and the cache entry keeps the stamped id instead of being cleared to
None, contrary to the claim (and to the spec's cached-path behaviour). -/
theorem claim_c1_fetch_path_divergence :
    (MuninnBot.automatic_application cfg0 (initState []) ("@alice:x") true thumbs_up ("!r")
        ("$w") (some { sender := ("@bot:ex.org"), marker := some ("@alice:x") })).2
      = [Action.fetchEvent ("!r") ("$w")]
    ∧ (MuninnBot.automatic_application cfg0 (initState []) ("@alice:x") true thumbs_up ("!r")
        ("$w") (some { sender := ("@bot:ex.org"), marker := some ("@alice:x") })).1.pendingApps
        ("$w") = some (some ("@alice:x")) :=
  ⟨by decide, by decide⟩

/-- C3 counterexample: a screened join processed at monotonic time 1 from
the initial state (window start 0) updates window_start to 1 even though
now minus window_start is far below 60 seconds, so window_start does not
change only on window expiry. -/
theorem claim_c3_counterexample :
    (MuninnBot.handle_join cfg0 (initState []) ("@alice:x") ("$e") 1 FetchOutcome.netError
        ("$m")).1.limiterTs = 1
    ∧ (initState []).limiterTs = 0
    ∧ ¬((1 : ℚ) - (initState []).limiterTs ≥ 60) := by
  obtain ⟨-, -, -, hts, -⟩ := handle_join_screens_fields cfg0 (initState []) ("@alice:x")
    ("$e") 1 FetchOutcome.netError ("$m") (by decide) (by decide) (by decide)
    (Or.inr (by decide))
  exact ⟨hts, rfl, by norm_num [initState]⟩

/-- C3 amended: the rate limiter state is (count, last_ts) where last_ts is
set to the processing time of every screened join, not only on resets; on a
join at time now that passes the skip checks, the count is reset to 0
exactly when now − last_ts exceeds 60 strictly, and such a join is always
screened and counted (ending with count 1); when now − last_ts is at most
60, the join is dropped with unchanged state iff count exceeds 5, and
otherwise screened with the count incremented. -/
theorem claim_c3_amended :
    ∀ (cfg : Config) (st : BotState) (sender evtId : String) (now : ℚ)
      (fetch : FetchOutcome) (msgId : String),
      sender ∉ st.spaceMembers → sender ≠ cfg.botMxid → st.welcomedUsers sender = none →
      ((st.limiterTs + 60 < now →
          (MuninnBot.handle_join cfg st sender evtId now fetch msgId).1.limiterCount = 1
            ∧ (MuninnBot.handle_join cfg st sender evtId now fetch msgId).1.limiterTs = now
            ∧ (MuninnBot.handle_join cfg st sender evtId now fetch msgId).2
              = check_acts cfg.screeningRoom sender evtId true fetch)
        ∧ (¬st.limiterTs + 60 < now → 5 < st.limiterCount →
            MuninnBot.handle_join cfg st sender evtId now fetch msgId
              = (st, [Action.logWarning]))
        ∧ (¬st.limiterTs + 60 < now → st.limiterCount ≤ 5 →
            (MuninnBot.handle_join cfg st sender evtId now fetch msgId).1.limiterCount
                = st.limiterCount + 1
              ∧ (MuninnBot.handle_join cfg st sender evtId now fetch msgId).1.limiterTs = now
              ∧ (MuninnBot.handle_join cfg st sender evtId now fetch msgId).2
                = check_acts cfg.screeningRoom sender evtId true fetch)) := by
  intro cfg st sender evtId now fetch msgId h1 h2 h3
  refine ⟨fun hr => ?_, fun hr hc => ?_, fun hr hc => ?_⟩
  · obtain ⟨-, -, hcnt, hts, hacts⟩ :=
      handle_join_screens_fields cfg st sender evtId now fetch msgId h1 h2 h3 (Or.inl hr)
    rw [if_pos hr] at hcnt
    exact ⟨hcnt, hts, hacts⟩
  · exact handle_join_dropped cfg st sender evtId now fetch msgId h1 h2 h3 hr hc
  · obtain ⟨-, -, hcnt, hts, hacts⟩ :=
      handle_join_screens_fields cfg st sender evtId now fetch msgId h1 h2 h3 (Or.inr hc)
    rw [if_neg hr] at hcnt
    exact ⟨hcnt, hts, hacts⟩

/-- Witness for the amended C3 at concrete inputs: a join far past the
window is screened with count reset, and a join inside the window with a
fresh count is screened with count incremented. -/
theorem claim_c3_witness :
    ((MuninnBot.handle_join cfg0 (initState []) ("@alice:x") ("$e") 100 FetchOutcome.netError
          ("$m")).1.limiterCount = 1
        ∧ (MuninnBot.handle_join cfg0 (initState []) ("@alice:x") ("$e") 100
            FetchOutcome.netError ("$m")).1.limiterTs = 100
        ∧ (MuninnBot.handle_join cfg0 (initState []) ("@alice:x") ("$e") 100
            FetchOutcome.netError ("$m")).2
          = check_acts cfg0.screeningRoom ("@alice:x") ("$e") true FetchOutcome.netError)
      ∧ ((MuninnBot.handle_join cfg0 (initState []) ("@alice:x") ("$e") 1 FetchOutcome.netError
            ("$m")).1.limiterCount = 0 + 1
          ∧ (MuninnBot.handle_join cfg0 (initState []) ("@alice:x") ("$e") 1
              FetchOutcome.netError ("$m")).1.limiterTs = 1
          ∧ (MuninnBot.handle_join cfg0 (initState []) ("@alice:x") ("$e") 1
              FetchOutcome.netError ("$m")).2
            = check_acts cfg0.screeningRoom ("@alice:x") ("$e") true FetchOutcome.netError) :=
  ⟨(claim_c3_amended cfg0 (initState []) ("@alice:x") ("$e") 100 FetchOutcome.netError ("$m")
      (by decide) (by decide) (by decide)).1 (by norm_num [initState]),
    (claim_c3_amended cfg0 (initState []) ("@alice:x") ("$e") 1 FetchOutcome.netError ("$m")
      (by decide) (by decide) (by decide)).2.2 (by norm_num [initState]) (by decide)⟩

/-- C9 counterexample: a response with status 304 (non-2xx but below 400)
whose body decodes fine makes fetch_support_well_known succeed - aiohttp's
raise_for_status raises only for status 400 and above - so the fetch does
not raise exactly on non-2xx responses as claimed. -/
theorem claim_c9_counterexample :
    fetch_support_well_known (FetchOutcome.response 304 (some wkEmpty)) = Except.ok wkEmpty
    ∧ ¬(200 ≤ 304 ∧ 304 < 300) :=
  ⟨rfl, by decide⟩

/-- C9 amended: the fetch fails exactly on a network error, a response
status of 400 or above (what resp.raise_for_status raises on), or an
undecodable body; _check_member maps the outcome to exactly one of the
three NEW classifications - listed iff the fetch succeeded with a contact
whose matrix_id equals the sender, not-listed iff it succeeded without one,
well-known-missing iff the fetch raised - and on a failed fetch the emitted
effects still contain the logged warning followed by the reply, so no error
propagates to the room. -/
theorem claim_c9_amended :
    (∀ (status : Nat) (body : Option SupportWellKnown),
        (∃ e, fetch_support_well_known (FetchOutcome.response status body) = Except.error e)
          ↔ (400 ≤ status ∨ body = none))
      ∧ (∃ e, fetch_support_well_known FetchOutcome.netError = Except.error e)
      ∧ (∀ (sender : String) (f : FetchOutcome),
          (classify sender f = JoinType.NEW_IS_LISTED_SUPPORT
              ∨ classify sender f = JoinType.NEW_NOT_LISTED_SUPPORT
              ∨ classify sender f = JoinType.NEW_WELL_KNOWN_MISSING)
            ∧ (classify sender f = JoinType.NEW_IS_LISTED_SUPPORT
              ↔ ∃ wk, fetch_support_well_known f = Except.ok wk ∧ wk.has_contact sender = true)
            ∧ (classify sender f = JoinType.NEW_NOT_LISTED_SUPPORT
              ↔ ∃ wk, fetch_support_well_known f = Except.ok wk ∧ wk.has_contact sender = false)
            ∧ (classify sender f = JoinType.NEW_WELL_KNOWN_MISSING
              ↔ fetch_support_well_known f = Except.error FetchFailure.mk))
      ∧ ∀ (room sender evtId : String) (ij : Bool) (f : FetchOutcome) (e : FetchFailure),
          fetch_support_well_known f = Except.error e →
          check_acts room sender evtId ij f
            = [Action.fetchSupport (server_of sender), Action.logWarning,
                Action.sendWelcome room sender JoinType.NEW_WELL_KNOWN_MISSING ij none evtId] := by
  refine ⟨fun status body => ?_, ⟨FetchFailure.mk, rfl⟩, fun sender f => ?_, ?_⟩
  · cases body with
    | none =>
      by_cases hs : 400 ≤ status
      · exact iff_of_true ⟨FetchFailure.mk, by simp [fetch_support_well_known, hs]⟩ (Or.inl hs)
      · exact iff_of_true ⟨FetchFailure.mk, by simp [fetch_support_well_known, hs]⟩ (Or.inr rfl)
    | some wk =>
      by_cases hs : 400 ≤ status
      · exact iff_of_true ⟨FetchFailure.mk, by simp [fetch_support_well_known, hs]⟩ (Or.inl hs)
      · constructor
        · rintro ⟨e, he⟩
          rw [show fetch_support_well_known (FetchOutcome.response status (some wk))
              = Except.ok wk from by simp [fetch_support_well_known, hs]] at he
          exact Except.noConfusion he
        · rintro (h | h)
          · exact absurd h hs
          · exact Option.noConfusion h
  · cases hf : fetch_support_well_known f with
    | error e =>
      cases e
      rw [classify_err sender f FetchFailure.mk hf]
      refine ⟨Or.inr (Or.inr rfl), ?_, ?_, iff_of_true rfl rfl⟩
      · constructor
        · intro h
          exact absurd h (by simp)
        · rintro ⟨wk2, hwk2, -⟩
          exact Except.noConfusion hwk2
      · constructor
        · intro h
          exact absurd h (by simp)
        · rintro ⟨wk2, hwk2, -⟩
          exact Except.noConfusion hwk2
    | ok wk =>
      by_cases hc : wk.has_contact sender = true
      · rw [classify_ok sender f wk hf, if_pos hc]
        refine ⟨Or.inl rfl, iff_of_true rfl ⟨wk, rfl, hc⟩, ?_, ?_⟩
        · constructor
          · intro h
            exact absurd h (by simp)
          · rintro ⟨wk2, hwk2, hc2⟩
            injection hwk2 with h
            subst h
            rw [hc] at hc2
            exact Bool.noConfusion hc2
        · constructor
          · intro h
            exact absurd h (by simp)
          · intro h2
            exact Except.noConfusion h2
      · have hc' : wk.has_contact sender = false := by
          cases hcb : wk.has_contact sender
          · rfl
          · exact absurd hcb hc
        rw [classify_ok sender f wk hf, if_neg hc]
        refine ⟨Or.inr (Or.inl rfl), ?_, iff_of_true rfl ⟨wk, rfl, hc'⟩, ?_⟩
        · constructor
          · intro h
            exact absurd h (by simp)
          · rintro ⟨wk2, hwk2, hc2⟩
            injection hwk2 with h
            subst h
            rw [hc'] at hc2
            exact Bool.noConfusion hc2
        · constructor
          · intro h
            exact absurd h (by simp)
          · intro h2
            exact Except.noConfusion h2
  · intro room sender evtId ij f e hf
    rw [check_acts, hf, classify, hf]
    rfl

/-- Witness for the amended C9: a 404 with decodable body fails, and the
failed fetch still produces the logged warning and the reply. -/
theorem claim_c9_witness :
    ((∃ e, fetch_support_well_known (FetchOutcome.response 404 (some wkEmpty))
          = Except.error e) ↔ (400 ≤ 404 ∨ (some wkEmpty : Option SupportWellKnown) = none))
      ∧ check_acts ("!r") ("@alice:x") ("$e") true FetchOutcome.netError
        = [Action.fetchSupport (server_of ("@alice:x")), Action.logWarning,
            Action.sendWelcome ("!r") ("@alice:x") JoinType.NEW_WELL_KNOWN_MISSING true none
              ("$e")] :=
  ⟨claim_c9_amended.1 404 (some wkEmpty),
    claim_c9_amended.2.2.2 ("!r") ("@alice:x") ("$e") true FetchOutcome.netError
      FetchFailure.mk rfl⟩

/-- C10 witness: one concrete join puts the name in member_names, and a
concrete removal keeps member_names while clearing both server mappings. -/
theorem claim_c10_witness :
    ((runName ∅ {("com")} initNameState
          [NameEvent.member ("@a:x") Membership.join (some ("Alice [ex.com]"))]).member_names
        ("@a:x")).isSome = true
      ∧ (NameMonitor.handle_member ∅ {("com")} initNameState
          (NameEvent.member ("@a:x") Membership.leave none)).member_names
        = initNameState.member_names
      ∧ ((NameMonitor.handle_member ∅ {("com")} initNameState
            (NameEvent.member ("@a:x") Membership.leave none)).mxid_to_servers ("@a:x") = none
          ∧ ∀ s, ("@a:x" : String) ∉ (((NameMonitor.handle_member ∅ {("com")} initNameState
              (NameEvent.member ("@a:x") Membership.leave none)).server_to_mxids s).getD ∅)) :=
  ⟨claim_c10_names_superset.1 ∅ {("com")}
      [NameEvent.member ("@a:x") Membership.join (some ("Alice [ex.com]"))] ("@a:x") (by decide),
    claim_c10_names_superset.2.1 ∅ {("com")} initNameState ("@a:x") Membership.leave none
      (by decide),
    claim_c10_names_superset.2.2 ∅ {("com")} initNameState ("@a:x") Membership.leave none
      (by decide) (by decide) initNameState_inv⟩

/- The initial state has no welcomed entries. -/
theorem initState_welcomed_none (space : List String) (x : String) :
    (initState space).welcomedUsers x = none := rfl

/-- C4: from the initial state, seven screening-room joins by distinct
users - none a space member, none the bot, none previously welcomed - all
arriving within one second get exactly the first six screened (each emits
its welcome effects and records a WelcomedUser entry) while the seventh is
dropped with only a logged warning and no state recorded for its user; a
further fresh join arriving 61 seconds after the burst is screened again,
leaving the limiter at count 1 with the last join's timestamp. -/
theorem claim_c4_rate_limiter_burst (cfg : Config) (space : List String)
    (u ev m : Fin 8 → String) (t : Fin 8 → ℚ) (f : Fin 8 → FetchOutcome)
    (hinj : ∀ i j : Fin 8, u i = u j → i = j)
    (hspace : ∀ i, u i ∉ space) (hbot : ∀ i, u i ≠ cfg.botMxid)
    (h01 : t 0 ≤ t 1) (h12 : t 1 ≤ t 2) (h23 : t 2 ≤ t 3) (h34 : t 3 ≤ t 4)
    (h45 : t 4 ≤ t 5) (h56 : t 5 ≤ t 6) (hwin : t 6 ≤ t 0 + 1) (hlater : t 6 + 61 ≤ t 7) :
    ∀ res : List (List Action) × BotState,
      res = runTrace cfg (initState space)
        [BotEvent.joinScreen (u 0) (ev 0) (t 0) (f 0) (m 0),
          BotEvent.joinScreen (u 1) (ev 1) (t 1) (f 1) (m 1),
          BotEvent.joinScreen (u 2) (ev 2) (t 2) (f 2) (m 2),
          BotEvent.joinScreen (u 3) (ev 3) (t 3) (f 3) (m 3),
          BotEvent.joinScreen (u 4) (ev 4) (t 4) (f 4) (m 4),
          BotEvent.joinScreen (u 5) (ev 5) (t 5) (f 5) (m 5),
          BotEvent.joinScreen (u 6) (ev 6) (t 6) (f 6) (m 6),
          BotEvent.joinScreen (u 7) (ev 7) (t 7) (f 7) (m 7)] →
      res.1 = [check_acts cfg.screeningRoom (u 0) (ev 0) true (f 0),
          check_acts cfg.screeningRoom (u 1) (ev 1) true (f 1),
          check_acts cfg.screeningRoom (u 2) (ev 2) true (f 2),
          check_acts cfg.screeningRoom (u 3) (ev 3) true (f 3),
          check_acts cfg.screeningRoom (u 4) (ev 4) true (f 4),
          check_acts cfg.screeningRoom (u 5) (ev 5) true (f 5),
          [Action.logWarning],
          check_acts cfg.screeningRoom (u 7) (ev 7) true (f 7)]
        ∧ res.2.welcomedUsers (u 0) = some (some (m 0))
        ∧ res.2.welcomedUsers (u 1) = some (some (m 1))
        ∧ res.2.welcomedUsers (u 2) = some (some (m 2))
        ∧ res.2.welcomedUsers (u 3) = some (some (m 3))
        ∧ res.2.welcomedUsers (u 4) = some (some (m 4))
        ∧ res.2.welcomedUsers (u 5) = some (some (m 5))
        ∧ res.2.welcomedUsers (u 7) = some (some (m 7))
        ∧ res.2.welcomedUsers (u 6) = none
        ∧ res.2.limiterCount = 1
        ∧ res.2.limiterTs = t 7 := by
  intro res hres
  subst hres
  have hne : ∀ i j : Fin 8, i ≠ j → u i ≠ u j := fun i j hij h => hij (hinj i j h)
  obtain ⟨s1, hstA0, hstB0, hsp1, hw1, hc1, ht1⟩ :
      ∃ sx : BotState,
        (step cfg (initState space) (BotEvent.joinScreen (u 0) (ev 0) (t 0) (f 0) (m 0))).1 = sx
          ∧ (step cfg (initState space) (BotEvent.joinScreen (u 0) (ev 0) (t 0) (f 0) (m 0))).2 = check_acts cfg.screeningRoom (u 0) (ev 0) true (f 0)
          ∧ sx.spaceMembers = space
          ∧ sx.welcomedUsers
            = mapSet (initState space).welcomedUsers (u 0) (some (some (m 0)))
          ∧ sx.limiterCount = 1
          ∧ sx.limiterTs = t 0 := by
    obtain ⟨hw, hsp, hcnt, hts, hacts⟩ := handle_join_screens_fields cfg (initState space)
      (u 0) (ev 0) (t 0) (f 0) (m 0) (hspace 0) (hbot 0) rfl (Or.inr (Nat.zero_le 5))
    rw [show (initState space).limiterCount = 0 from rfl, ite_self] at hcnt
    exact ⟨_, rfl, hacts, hsp, hw, hcnt, hts⟩
  have hnr1 : ¬(s1.limiterTs + 60 < t 1) := by
    rw [ht1]
    intro hcon
    linarith
  obtain ⟨s2, hstA1, hstB1, hsp2, hw2, hc2, ht2⟩ :
      ∃ sx : BotState,
        (step cfg s1 (BotEvent.joinScreen (u 1) (ev 1) (t 1) (f 1) (m 1))).1 = sx
          ∧ (step cfg s1 (BotEvent.joinScreen (u 1) (ev 1) (t 1) (f 1) (m 1))).2 = check_acts cfg.screeningRoom (u 1) (ev 1) true (f 1)
          ∧ sx.spaceMembers = space
          ∧ sx.welcomedUsers = mapSet s1.welcomedUsers (u 1) (some (some (m 1)))
          ∧ sx.limiterCount = 2
          ∧ sx.limiterTs = t 1 := by
    obtain ⟨hw, hsp, hcnt, hts, hacts⟩ := handle_join_screens_fields cfg s1
      (u 1) (ev 1) (t 1) (f 1) (m 1) (by rw [hsp1]; exact hspace 1) (hbot 1)
      (by rw [hw1, mapSet_other _ _ _ _ (hne 1 0 (by decide)), initState_welcomed_none]) (Or.inr (by rw [hc1]; norm_num))
    rw [if_neg hnr1, hc1] at hcnt
    exact ⟨_, rfl, hacts, hsp.trans hsp1, hw, hcnt, hts⟩
  have hnr2 : ¬(s2.limiterTs + 60 < t 2) := by
    rw [ht2]
    intro hcon
    linarith
  obtain ⟨s3, hstA2, hstB2, hsp3, hw3, hc3, ht3⟩ :
      ∃ sx : BotState,
        (step cfg s2 (BotEvent.joinScreen (u 2) (ev 2) (t 2) (f 2) (m 2))).1 = sx
          ∧ (step cfg s2 (BotEvent.joinScreen (u 2) (ev 2) (t 2) (f 2) (m 2))).2 = check_acts cfg.screeningRoom (u 2) (ev 2) true (f 2)
          ∧ sx.spaceMembers = space
          ∧ sx.welcomedUsers = mapSet s2.welcomedUsers (u 2) (some (some (m 2)))
          ∧ sx.limiterCount = 3
          ∧ sx.limiterTs = t 2 := by
    obtain ⟨hw, hsp, hcnt, hts, hacts⟩ := handle_join_screens_fields cfg s2
      (u 2) (ev 2) (t 2) (f 2) (m 2) (by rw [hsp2]; exact hspace 2) (hbot 2)
      (by rw [hw2, mapSet_other _ _ _ _ (hne 2 1 (by decide)), hw1, mapSet_other _ _ _ _ (hne 2 0 (by decide)), initState_welcomed_none]) (Or.inr (by rw [hc2]; norm_num))
    rw [if_neg hnr2, hc2] at hcnt
    exact ⟨_, rfl, hacts, hsp.trans hsp2, hw, hcnt, hts⟩
  have hnr3 : ¬(s3.limiterTs + 60 < t 3) := by
    rw [ht3]
    intro hcon
    linarith
  obtain ⟨s4, hstA3, hstB3, hsp4, hw4, hc4, ht4⟩ :
      ∃ sx : BotState,
        (step cfg s3 (BotEvent.joinScreen (u 3) (ev 3) (t 3) (f 3) (m 3))).1 = sx
          ∧ (step cfg s3 (BotEvent.joinScreen (u 3) (ev 3) (t 3) (f 3) (m 3))).2 = check_acts cfg.screeningRoom (u 3) (ev 3) true (f 3)
          ∧ sx.spaceMembers = space
          ∧ sx.welcomedUsers = mapSet s3.welcomedUsers (u 3) (some (some (m 3)))
          ∧ sx.limiterCount = 4
          ∧ sx.limiterTs = t 3 := by
    obtain ⟨hw, hsp, hcnt, hts, hacts⟩ := handle_join_screens_fields cfg s3
      (u 3) (ev 3) (t 3) (f 3) (m 3) (by rw [hsp3]; exact hspace 3) (hbot 3)
      (by rw [hw3, mapSet_other _ _ _ _ (hne 3 2 (by decide)), hw2, mapSet_other _ _ _ _ (hne 3 1 (by decide)), hw1, mapSet_other _ _ _ _ (hne 3 0 (by decide)), initState_welcomed_none]) (Or.inr (by rw [hc3]; norm_num))
    rw [if_neg hnr3, hc3] at hcnt
    exact ⟨_, rfl, hacts, hsp.trans hsp3, hw, hcnt, hts⟩
  have hnr4 : ¬(s4.limiterTs + 60 < t 4) := by
    rw [ht4]
    intro hcon
    linarith
  obtain ⟨s5, hstA4, hstB4, hsp5, hw5, hc5, ht5⟩ :
      ∃ sx : BotState,
        (step cfg s4 (BotEvent.joinScreen (u 4) (ev 4) (t 4) (f 4) (m 4))).1 = sx
          ∧ (step cfg s4 (BotEvent.joinScreen (u 4) (ev 4) (t 4) (f 4) (m 4))).2 = check_acts cfg.screeningRoom (u 4) (ev 4) true (f 4)
          ∧ sx.spaceMembers = space
          ∧ sx.welcomedUsers = mapSet s4.welcomedUsers (u 4) (some (some (m 4)))
          ∧ sx.limiterCount = 5
          ∧ sx.limiterTs = t 4 := by
    obtain ⟨hw, hsp, hcnt, hts, hacts⟩ := handle_join_screens_fields cfg s4
      (u 4) (ev 4) (t 4) (f 4) (m 4) (by rw [hsp4]; exact hspace 4) (hbot 4)
      (by rw [hw4, mapSet_other _ _ _ _ (hne 4 3 (by decide)), hw3, mapSet_other _ _ _ _ (hne 4 2 (by decide)), hw2, mapSet_other _ _ _ _ (hne 4 1 (by decide)), hw1, mapSet_other _ _ _ _ (hne 4 0 (by decide)), initState_welcomed_none]) (Or.inr (by rw [hc4]; norm_num))
    rw [if_neg hnr4, hc4] at hcnt
    exact ⟨_, rfl, hacts, hsp.trans hsp4, hw, hcnt, hts⟩
  have hnr5 : ¬(s5.limiterTs + 60 < t 5) := by
    rw [ht5]
    intro hcon
    linarith
  obtain ⟨s6, hstA5, hstB5, hsp6, hw6, hc6, ht6⟩ :
      ∃ sx : BotState,
        (step cfg s5 (BotEvent.joinScreen (u 5) (ev 5) (t 5) (f 5) (m 5))).1 = sx
          ∧ (step cfg s5 (BotEvent.joinScreen (u 5) (ev 5) (t 5) (f 5) (m 5))).2 = check_acts cfg.screeningRoom (u 5) (ev 5) true (f 5)
          ∧ sx.spaceMembers = space
          ∧ sx.welcomedUsers = mapSet s5.welcomedUsers (u 5) (some (some (m 5)))
          ∧ sx.limiterCount = 6
          ∧ sx.limiterTs = t 5 := by
    obtain ⟨hw, hsp, hcnt, hts, hacts⟩ := handle_join_screens_fields cfg s5
      (u 5) (ev 5) (t 5) (f 5) (m 5) (by rw [hsp5]; exact hspace 5) (hbot 5)
      (by rw [hw5, mapSet_other _ _ _ _ (hne 5 4 (by decide)), hw4, mapSet_other _ _ _ _ (hne 5 3 (by decide)), hw3, mapSet_other _ _ _ _ (hne 5 2 (by decide)), hw2, mapSet_other _ _ _ _ (hne 5 1 (by decide)), hw1, mapSet_other _ _ _ _ (hne 5 0 (by decide)), initState_welcomed_none]) (Or.inr (by rw [hc5]))
    rw [if_neg hnr5, hc5] at hcnt
    exact ⟨_, rfl, hacts, hsp.trans hsp5, hw, hcnt, hts⟩
  have hnr6 : ¬(s6.limiterTs + 60 < t 6) := by
    rw [ht6]
    intro hcon
    linarith
  have hfresh6 : s6.welcomedUsers (u 6) = none := by rw [hw6, mapSet_other _ _ _ _ (hne 6 5 (by decide)), hw5, mapSet_other _ _ _ _ (hne 6 4 (by decide)), hw4, mapSet_other _ _ _ _ (hne 6 3 (by decide)), hw3, mapSet_other _ _ _ _ (hne 6 2 (by decide)), hw2, mapSet_other _ _ _ _ (hne 6 1 (by decide)), hw1, mapSet_other _ _ _ _ (hne 6 0 (by decide)), initState_welcomed_none]
  have hdrop := handle_join_dropped cfg s6 (u 6) (ev 6) (t 6) (f 6) (m 6)
    (by rw [hsp6]; exact hspace 6) (hbot 6) hfresh6 hnr6 (by rw [hc6]; norm_num)
  have hst6A : (step cfg s6 (BotEvent.joinScreen (u 6) (ev 6) (t 6) (f 6) (m 6))).1 = s6 := by
    show (MuninnBot.handle_join cfg s6 (u 6) (ev 6) (t 6) (f 6) (m 6)).1 = s6
    rw [hdrop]
  have hst6B : (step cfg s6 (BotEvent.joinScreen (u 6) (ev 6) (t 6) (f 6) (m 6))).2 = [Action.logWarning] := by
    show (MuninnBot.handle_join cfg s6 (u 6) (ev 6) (t 6) (f 6) (m 6)).2 = [Action.logWarning]
    rw [hdrop]
  have hres7 : s6.limiterTs + 60 < t 7 := by
    rw [ht6]
    linarith
  obtain ⟨s8, hstA7, hstB7, hsp8, hw8, hc8, ht8⟩ :
      ∃ sx : BotState,
        (step cfg s6 (BotEvent.joinScreen (u 7) (ev 7) (t 7) (f 7) (m 7))).1 = sx
          ∧ (step cfg s6 (BotEvent.joinScreen (u 7) (ev 7) (t 7) (f 7) (m 7))).2 = check_acts cfg.screeningRoom (u 7) (ev 7) true (f 7)
          ∧ sx.spaceMembers = space
          ∧ sx.welcomedUsers = mapSet s6.welcomedUsers (u 7) (some (some (m 7)))
          ∧ sx.limiterCount = 1
          ∧ sx.limiterTs = t 7 := by
    obtain ⟨hw, hsp, hcnt, hts, hacts⟩ := handle_join_screens_fields cfg s6
      (u 7) (ev 7) (t 7) (f 7) (m 7) (by rw [hsp6]; exact hspace 7) (hbot 7)
      (by rw [hw6, mapSet_other _ _ _ _ (hne 7 5 (by decide)), hw5, mapSet_other _ _ _ _ (hne 7 4 (by decide)), hw4, mapSet_other _ _ _ _ (hne 7 3 (by decide)), hw3, mapSet_other _ _ _ _ (hne 7 2 (by decide)), hw2, mapSet_other _ _ _ _ (hne 7 1 (by decide)), hw1, mapSet_other _ _ _ _ (hne 7 0 (by decide)), initState_welcomed_none]) (Or.inl hres7)
    rw [if_pos hres7] at hcnt
    exact ⟨_, rfl, hacts, hsp.trans hsp6, hw, hcnt, hts⟩
  have hrun : runTrace cfg (initState space)
      [BotEvent.joinScreen (u 0) (ev 0) (t 0) (f 0) (m 0),
          BotEvent.joinScreen (u 1) (ev 1) (t 1) (f 1) (m 1),
          BotEvent.joinScreen (u 2) (ev 2) (t 2) (f 2) (m 2),
          BotEvent.joinScreen (u 3) (ev 3) (t 3) (f 3) (m 3),
          BotEvent.joinScreen (u 4) (ev 4) (t 4) (f 4) (m 4),
          BotEvent.joinScreen (u 5) (ev 5) (t 5) (f 5) (m 5),
          BotEvent.joinScreen (u 6) (ev 6) (t 6) (f 6) (m 6),
          BotEvent.joinScreen (u 7) (ev 7) (t 7) (f 7) (m 7)]
      = ([check_acts cfg.screeningRoom (u 0) (ev 0) true (f 0),
          check_acts cfg.screeningRoom (u 1) (ev 1) true (f 1),
          check_acts cfg.screeningRoom (u 2) (ev 2) true (f 2),
          check_acts cfg.screeningRoom (u 3) (ev 3) true (f 3),
          check_acts cfg.screeningRoom (u 4) (ev 4) true (f 4),
          check_acts cfg.screeningRoom (u 5) (ev 5) true (f 5),
          [Action.logWarning],
          check_acts cfg.screeningRoom (u 7) (ev 7) true (f 7)], s8) := by
    simp only [runTrace, hstA0, hstB0, hstA1, hstB1, hstA2, hstB2, hstA3, hstB3, hstA4,
      hstB4, hstA5, hstB5, hst6A, hst6B, hstA7, hstB7]
  rw [hrun]
  refine ⟨rfl, ?_, ?_, ?_, ?_, ?_, ?_, ?_, ?_, hc8, ht8⟩
  · show s8.welcomedUsers (u 0) = some (some (m 0))
    rw [hw8, mapSet_other _ _ _ _ (hne 0 7 (by decide)), hw6, mapSet_other _ _ _ _ (hne 0 5 (by decide)), hw5, mapSet_other _ _ _ _ (hne 0 4 (by decide)), hw4, mapSet_other _ _ _ _ (hne 0 3 (by decide)), hw3, mapSet_other _ _ _ _ (hne 0 2 (by decide)), hw2, mapSet_other _ _ _ _ (hne 0 1 (by decide)), hw1, mapSet_same]
  · show s8.welcomedUsers (u 1) = some (some (m 1))
    rw [hw8, mapSet_other _ _ _ _ (hne 1 7 (by decide)), hw6, mapSet_other _ _ _ _ (hne 1 5 (by decide)), hw5, mapSet_other _ _ _ _ (hne 1 4 (by decide)), hw4, mapSet_other _ _ _ _ (hne 1 3 (by decide)), hw3, mapSet_other _ _ _ _ (hne 1 2 (by decide)), hw2, mapSet_same]
  · show s8.welcomedUsers (u 2) = some (some (m 2))
    rw [hw8, mapSet_other _ _ _ _ (hne 2 7 (by decide)), hw6, mapSet_other _ _ _ _ (hne 2 5 (by decide)), hw5, mapSet_other _ _ _ _ (hne 2 4 (by decide)), hw4, mapSet_other _ _ _ _ (hne 2 3 (by decide)), hw3, mapSet_same]
  · show s8.welcomedUsers (u 3) = some (some (m 3))
    rw [hw8, mapSet_other _ _ _ _ (hne 3 7 (by decide)), hw6, mapSet_other _ _ _ _ (hne 3 5 (by decide)), hw5, mapSet_other _ _ _ _ (hne 3 4 (by decide)), hw4, mapSet_same]
  · show s8.welcomedUsers (u 4) = some (some (m 4))
    rw [hw8, mapSet_other _ _ _ _ (hne 4 7 (by decide)), hw6, mapSet_other _ _ _ _ (hne 4 5 (by decide)), hw5, mapSet_same]
  · show s8.welcomedUsers (u 5) = some (some (m 5))
    rw [hw8, mapSet_other _ _ _ _ (hne 5 7 (by decide)), hw6, mapSet_same]
  · show s8.welcomedUsers (u 7) = some (some (m 7))
    rw [hw8, mapSet_same]
  · show s8.welcomedUsers (u 6) = none
    rw [hw8, mapSet_other _ _ _ _ (hne 6 7 (by decide))]
    exact hfresh6

/-- Witness for C4 at concrete users, message ids and times. -/
theorem claim_c4_witness :
    (runTrace cfg0 (initState [])
        [BotEvent.joinScreen (c4u 0) ("$e") (c4t 0) FetchOutcome.netError (c4m 0),
          BotEvent.joinScreen (c4u 1) ("$e") (c4t 1) FetchOutcome.netError (c4m 1),
          BotEvent.joinScreen (c4u 2) ("$e") (c4t 2) FetchOutcome.netError (c4m 2),
          BotEvent.joinScreen (c4u 3) ("$e") (c4t 3) FetchOutcome.netError (c4m 3),
          BotEvent.joinScreen (c4u 4) ("$e") (c4t 4) FetchOutcome.netError (c4m 4),
          BotEvent.joinScreen (c4u 5) ("$e") (c4t 5) FetchOutcome.netError (c4m 5),
          BotEvent.joinScreen (c4u 6) ("$e") (c4t 6) FetchOutcome.netError (c4m 6),
          BotEvent.joinScreen (c4u 7) ("$e") (c4t 7) FetchOutcome.netError (c4m 7)]).2.welcomedUsers (c4u 6) = none
      ∧ (runTrace cfg0 (initState [])
        [BotEvent.joinScreen (c4u 0) ("$e") (c4t 0) FetchOutcome.netError (c4m 0),
          BotEvent.joinScreen (c4u 1) ("$e") (c4t 1) FetchOutcome.netError (c4m 1),
          BotEvent.joinScreen (c4u 2) ("$e") (c4t 2) FetchOutcome.netError (c4m 2),
          BotEvent.joinScreen (c4u 3) ("$e") (c4t 3) FetchOutcome.netError (c4m 3),
          BotEvent.joinScreen (c4u 4) ("$e") (c4t 4) FetchOutcome.netError (c4m 4),
          BotEvent.joinScreen (c4u 5) ("$e") (c4t 5) FetchOutcome.netError (c4m 5),
          BotEvent.joinScreen (c4u 6) ("$e") (c4t 6) FetchOutcome.netError (c4m 6),
          BotEvent.joinScreen (c4u 7) ("$e") (c4t 7) FetchOutcome.netError (c4m 7)]).2.welcomedUsers (c4u 5) = some (some (c4m 5))
      ∧ (runTrace cfg0 (initState [])
        [BotEvent.joinScreen (c4u 0) ("$e") (c4t 0) FetchOutcome.netError (c4m 0),
          BotEvent.joinScreen (c4u 1) ("$e") (c4t 1) FetchOutcome.netError (c4m 1),
          BotEvent.joinScreen (c4u 2) ("$e") (c4t 2) FetchOutcome.netError (c4m 2),
          BotEvent.joinScreen (c4u 3) ("$e") (c4t 3) FetchOutcome.netError (c4m 3),
          BotEvent.joinScreen (c4u 4) ("$e") (c4t 4) FetchOutcome.netError (c4m 4),
          BotEvent.joinScreen (c4u 5) ("$e") (c4t 5) FetchOutcome.netError (c4m 5),
          BotEvent.joinScreen (c4u 6) ("$e") (c4t 6) FetchOutcome.netError (c4m 6),
          BotEvent.joinScreen (c4u 7) ("$e") (c4t 7) FetchOutcome.netError (c4m 7)]).2.limiterCount = 1 := by
  obtain ⟨-, -, -, -, -, -, h5, -, h6, hcnt, -⟩ := claim_c4_rate_limiter_burst cfg0 []
    c4u (fun _ => ("$e")) c4m c4t (fun _ => FetchOutcome.netError) (by decide) (by decide)
    (by decide) (le_of_eq rfl) (le_of_eq rfl) (le_of_eq rfl) (le_of_eq rfl)
    (le_of_eq rfl) (le_of_eq rfl)
    (by rw [show c4t 6 = (100 : ℚ) from rfl, show c4t 0 = (100 : ℚ) from rfl]; norm_num)
    (by rw [show c4t 6 = (100 : ℚ) from rfl, show c4t 7 = (161 : ℚ) from rfl]; norm_num)
    _ rfl
  exact ⟨h6, h5, hcnt⟩

end Muninn
